import Mathlib

/-!
# noda: list service, user repository, task service and task repository

A shallow embedding of `api/service/list_service.go` (`ListService.SaveList`,
`ListService.FindListByID`), of `api/repository/user_repository.go`
(`UserRepository.SelectAll`, `Insert`, `Update`, `ExistsUserWithEmail`,
`SelectByID`) and of `repository/task_repository.go` (`taskRepository`), with
the library functions they call (`strings.Trim`, `uuid.Parse`,
`uuid.UUID.String`). The task and group services, whose files are not among the
sources, are modelled from the spec.

Conventions of the embedding:

* a Go `string` is its sequence of bytes (`GoString`), so `len` is `List.length`;
* a Go `error` is a value of `GoError`, and a nil error is `none`;
* a pointer that may be nil is an `Option`;
* a method that talks to a collaborator threads the collaborator's state and
  records every call it makes, in order, in a `calls` trace;
* an `int64` is an `Int` inside `[MinInt64, MaxInt64]`, and arithmetic wraps
  through `wrapInt64`;
* a call that may panic returns a `GoResult`;
* a database is its rows together with the failures of the driver, and every
  method records the statements it executes.
-/

set_option autoImplicit false

/-! ## Go strings -/

/-- A Go string: an immutable sequence of bytes. -/
abbrev GoString := List UInt8

/-- The bytes (UTF-8) of a string literal of the source. -/
def GoString.ofString (s : String) : GoString :=
  s.data.flatMap String.utf8EncodeChar

/-- Go's builtin `len` on a string: the number of bytes. -/
def GoString.len (s : GoString) : Nat := s.length

/-! ## Errors -/

/-- The `error` values that occur in the embedded code. -/
inductive GoError where
  /-- The value `errors.New(text)`. -/
  | new (text : String)
  /-- The value `failure.NewNilParameterError(funcName, paramName)`. -/
  | nilParameter (funcName paramName : String)
  /-- The `invalidLengthError` of package `uuid`: "invalid UUID length: n". -/
  | invalidLength (n : Nat)
  /-- The URN error of package `uuid`: "invalid urn prefix: ...". -/
  | invalidURNPrefix (got : GoString)
  /-- Any other error value, such as one produced by a store or a driver. -/
  | other (tag : Nat)
  /-- A package-level error variable such as `failure.ErrNotFound`, known by its name. -/
  | sentinel (name : String)
  /-- The `TooLongError` for a field of a payload and the bound it exceeds. -/
  | tooLong (field owner : String) (max : Nat)
deriving DecidableEq, Repr

/-- The function `errors.New` of the standard library. -/
def errors.New (text : String) : GoError := GoError.new text

/-- Modelled from the spec: `failure.NewNilParameterError` is declared in a file
of package `failure` that is not among the sources. It builds the
`NilParameterError` that names the operation and the offending parameter. -/
def failure.NewNilParameterError (funcName paramName : String) : GoError :=
  GoError.nilParameter funcName paramName

/-! ## Package `strings` -/

/-- Membership of a byte in an ASCII cutset (`asciiSet.contains`). -/
def strings.contains (cutset : GoString) (c : UInt8) : Bool := cutset.contains c

/-- The loop of `strings.trimLeftASCII`: drop leading bytes that are in the set. -/
def strings.trimLeftASCII (s : GoString) (cutset : GoString) : GoString :=
  s.dropWhile (strings.contains cutset)

/-- The loop of `strings.trimRightASCII`: drop trailing bytes that are in the set. -/
def strings.trimRightASCII (s : GoString) (cutset : GoString) : GoString :=
  (s.reverse.dropWhile (strings.contains cutset)).reverse

/-- The function `strings.Trim(s, cutset)` for a cutset of ASCII bytes, which is
the only way the list service calls it: `s` without its leading and trailing
bytes contained in `cutset`. -/
def strings.Trim (s : GoString) (cutset : GoString) : GoString :=
  if s = [] ∨ cutset = [] then s
  else strings.trimLeftASCII (strings.trimRightASCII s cutset) cutset

/-- ASCII lower-casing of one byte. -/
def strings.lowerByte (c : UInt8) : UInt8 :=
  if 65 ≤ c ∧ c ≤ 90 then c + 32 else c

/-- The function `strings.EqualFold(s, t)` where `t` is made of ASCII bytes and
`s` has as many bytes as `t`: equality up to the case of ASCII letters. -/
def strings.EqualFold (s t : GoString) : Bool :=
  s.map strings.lowerByte == t.map strings.lowerByte

/-! ## Package `github.com/google/uuid` -/

/-- A UUID: an array of 16 bytes (`type UUID [16]byte`). -/
structure uuid.UUID where
  /-- The sixteen bytes. -/
  bytes : List UInt8
  /-- The array has length 16. -/
  size : bytes.length = 16
deriving DecidableEq, Repr

/-- The zero UUID `uuid.Nil`. -/
def uuid.Nil : uuid.UUID := ⟨List.replicate 16 0, by decide⟩

/-- The table `hextable = "0123456789abcdef"` of `encoding/hex`. -/
def hex.hextable (i : UInt8) : UInt8 :=
  (GoString.ofString "0123456789abcdef").getD i.toNat 0

/-- The function `hex.Encode`: two lower-case hexadecimal digits per byte. -/
def hex.Encode (src : List UInt8) : GoString :=
  src.flatMap (fun v => [hex.hextable (v >>> 4), hex.hextable (v &&& 15)])

/-- The function `encodeHex`: the five groups of `xxxxxxxx-xxxx-xxxx-xxxx-xxxxxxxxxxxx`. -/
def uuid.encodeHex (u : List UInt8) : GoString :=
  hex.Encode (u.take 4) ++ [45] ++
  hex.Encode ((u.drop 4).take 2) ++ [45] ++
  hex.Encode ((u.drop 6).take 2) ++ [45] ++
  hex.Encode ((u.drop 8).take 2) ++ [45] ++
  hex.Encode (u.drop 10)

/-- The method `UUID.String`: the canonical 36-byte text of a UUID. -/
def uuid.UUID.String (u : uuid.UUID) : GoString := uuid.encodeHex u.bytes

/-- The table `xvalues`: the value of a hexadecimal digit, 255 for any other byte. -/
def uuid.xvalues (c : UInt8) : UInt8 :=
  if 48 ≤ c ∧ c ≤ 57 then c - 48
  else if 65 ≤ c ∧ c ≤ 70 then c - 55
  else if 97 ≤ c ∧ c ≤ 102 then c - 87
  else 255

/-- The function `xtob`: the byte written by two hexadecimal digits, and whether
both are digits. -/
def uuid.xtob (x1 x2 : UInt8) : UInt8 × Bool :=
  let b1 := uuid.xvalues x1
  let b2 := uuid.xvalues x2
  ((b1 <<< 4) ||| b2, b1 != 255 && b2 != 255)

/-- The loop of `uuid.Parse` for the 32-digit form: byte `i` is assigned from
digits `2i` and `2i+1` before the digits are checked. The result is the array
and whether the loop ran to its end. -/
def uuid.parsePlain (s : GoString) : List Nat → List UInt8 → List UInt8 × Bool
  | [], acc => (acc, true)
  | i :: rest, acc =>
    let r := uuid.xtob (s.getD (i * 2) 0) (s.getD (i * 2 + 1) 0)
    let acc := acc.set i r.1
    if !r.2 then (acc, false) else uuid.parsePlain s rest acc

/-- The offsets of the sixteen digit pairs in `xxxxxxxx-xxxx-xxxx-xxxx-xxxxxxxxxxxx`. -/
def uuid.offsets : List Nat :=
  [0, 2, 4, 6, 9, 11, 14, 16, 19, 21, 24, 26, 28, 30, 32, 34]

/-- The final loop of `uuid.Parse`: byte `i` is assigned from the digits at
offset `x` and `x+1` once they are checked. -/
def uuid.parseDashed (s : GoString) : List Nat → Nat → List UInt8 → List UInt8 × Bool
  | [], _, acc => (acc, true)
  | x :: rest, i, acc =>
    let r := uuid.xtob (s.getD x 0) (s.getD (x + 1) 0)
    if !r.2 then (acc, false) else uuid.parseDashed s rest (i + 1) (acc.set i r.1)

/-- The array a parsing loop leaves, as a UUID. -/
def uuid.ofBytes (l : List UInt8) : uuid.UUID :=
  if h : l.length = 16 then ⟨l, h⟩ else uuid.Nil

/-- The checks and the loop that `uuid.Parse` runs on the 36-byte form. -/
def uuid.parseCanonical (s : GoString) : uuid.UUID × Option GoError :=
  if s.getD 8 0 ≠ 45 ∨ s.getD 13 0 ≠ 45 ∨ s.getD 18 0 ≠ 45 ∨ s.getD 23 0 ≠ 45 then
    (uuid.Nil, some (errors.New "invalid UUID format"))
  else
    let r := uuid.parseDashed s uuid.offsets 0 uuid.Nil.bytes
    if r.2 then (uuid.ofBytes r.1, none)
    else (uuid.ofBytes r.1, some (errors.New "invalid UUID format"))

/-- The function `uuid.Parse`: it accepts the canonical form, the same behind
`urn:uuid:`, the same between two more bytes, and 32 bare digits. On an error it
returns the array as far as it was filled. -/
def uuid.Parse (s : GoString) : uuid.UUID × Option GoError :=
  if s.len = 36 then uuid.parseCanonical s
  else if s.len = 36 + 9 then
    if !strings.EqualFold (s.take 9) (GoString.ofString "urn:uuid:") then
      (uuid.Nil, some (GoError.invalidURNPrefix (s.take 9)))
    else uuid.parseCanonical (s.drop 9)
  else if s.len = 36 + 2 then uuid.parseCanonical (s.drop 1)
  else if s.len = 32 then
    let r := uuid.parsePlain s (List.range 16) uuid.Nil.bytes
    if r.2 then (uuid.ofBytes r.1, none)
    else (uuid.ofBytes r.1, some (errors.New "invalid UUID format"))
  else (uuid.Nil, some (GoError.invalidLength s.len))

/-! ## Data of the list service -/

/-- The payload `transfer.ListCreation`, with the fields the service touches. -/
structure transfer.ListCreation where
  /-- The name of the list. -/
  Name : GoString
  /-- The description of the list. -/
  Description : GoString
deriving DecidableEq, Repr

/-- The record `model.List`, with the fields the tests of the service fill. -/
structure model.List where
  /-- The identifier of the list. -/
  ID : uuid.UUID
  /-- The owner of the list. -/
  OwnerID : uuid.UUID
  /-- The group of the list. -/
  GroupID : uuid.UUID
  /-- The name of the list. -/
  Name : GoString
  /-- The description of the list. -/
  Description : GoString
deriving DecidableEq, Repr

/-- The two methods of `repository.IListRepository` that the embedded service
calls, over a store of type `σ`. The payload reaches `InsertList` as the service
left it; a repository that writes through the pointer is outside the model. -/
structure repository.IListRepository (σ : Type) where
  /-- Insert a list and return the text of its identifier. -/
  InsertList : GoString → GoString → transfer.ListCreation → σ →
    (GoString × Option GoError) × σ
  /-- Fetch a list by its identifier. -/
  FetchListByID : GoString → GoString → GoString → σ →
    (Option model.List × Option GoError) × σ

/-- One call to the repository, with its arguments. -/
inductive RepoCall where
  /-- A call `InsertList(ownerID, groupID, next)`. -/
  | InsertList (ownerID groupID : GoString) (next : transfer.ListCreation)
  /-- A call `FetchListByID(ownerID, groupID, listID)`. -/
  | FetchListByID (ownerID groupID listID : GoString)
deriving DecidableEq, Repr

/-- What a call of `SaveList` leaves behind. -/
structure SaveListOutcome (σ : Type) where
  /-- The first result. -/
  insertedID : uuid.UUID
  /-- The second result. -/
  err : Option GoError
  /-- The caller's payload after the call (`none` for a nil pointer). -/
  next : Option transfer.ListCreation
  /-- The calls made to the repository, in order. -/
  calls : List RepoCall
  /-- The store after the call. -/
  store : σ

/-- What a call of `FindListByID` leaves behind. -/
structure FindListOutcome (σ : Type) where
  /-- The first result. -/
  list : Option model.List
  /-- The second result. -/
  err : Option GoError
  /-- The calls made to the repository, in order. -/
  calls : List RepoCall
  /-- The store after the call. -/
  store : σ

/-! ## `ListService` -/

/-- The cutset `" \t\n"` of `SaveList`. -/
def ListService.cutset : GoString := GoString.ofString " \t\n"

/-- The payload after the two assignments that open the validation of
`SaveList`: both fields trimmed of spaces, tabs and newlines. -/
def ListService.trimmed (p : transfer.ListCreation) : transfer.ListCreation :=
  let p := { p with Name := strings.Trim p.Name ListService.cutset }
  { p with Description := strings.Trim p.Description ListService.cutset }

/-- The method `ListService.SaveList`. -/
def ListService.SaveList {σ : Type} (r : repository.IListRepository σ) (st : σ)
    (ownerID groupID : uuid.UUID) (next : Option transfer.ListCreation) :
    SaveListOutcome σ :=
  if uuid.Nil = ownerID then
    ⟨uuid.Nil, some (failure.NewNilParameterError "SaveList" "ownerID"), next, [], st⟩
  else if uuid.Nil = groupID then
    ⟨uuid.Nil, some (failure.NewNilParameterError "SaveList" "groupID"), next, [], st⟩
  else
    match next with
    | none =>
      ⟨uuid.Nil, some (failure.NewNilParameterError "SaveList" "next"), none, [], st⟩
    | some p =>
      let p := { p with Name := strings.Trim p.Name ListService.cutset }
      let p := { p with Description := strings.Trim p.Description ListService.cutset }
      if p.Name = [] then
        ⟨uuid.Nil, some (errors.New "name cannot be an empty string"), some p, [], st⟩
      else if 50 < p.Name.len then
        ⟨uuid.Nil, some (errors.New "name too long for list: max length must be 50"),
          some p, [], st⟩
      else
        let res := r.InsertList ownerID.String groupID.String p st
        let call := RepoCall.InsertList ownerID.String groupID.String p
        match res.1.2 with
        | some e => ⟨uuid.Nil, some e, some p, [call], res.2⟩
        | none =>
          let parsed := uuid.Parse res.1.1
          ⟨parsed.1, parsed.2, some p, [call], res.2⟩

/-- The method `ListService.FindListByID`. -/
def ListService.FindListByID {σ : Type} (r : repository.IListRepository σ) (st : σ)
    (ownerID groupID listID : uuid.UUID) : FindListOutcome σ :=
  if uuid.Nil = ownerID then
    ⟨none, some (failure.NewNilParameterError "FindListByID" "ownerID"), [], st⟩
  else if uuid.Nil = groupID then
    ⟨none, some (failure.NewNilParameterError "FindListByID" "groupID"), [], st⟩
  else if uuid.Nil = listID then
    ⟨none, some (failure.NewNilParameterError "FindListByID" "listID"), [], st⟩
  else
    let res := r.FetchListByID ownerID.String groupID.String listID.String st
    ⟨res.1.1, res.1.2,
      [RepoCall.FetchListByID ownerID.String groupID.String listID.String], res.2⟩

/-- The function `errors.Is(err, target)` on the error values of this
embedding, none of which wraps another: identity of the two errors. -/
def errors.Is (err target : Option GoError) : Bool := err == target

/-- Whether a byte is a space, a tab or a newline. -/
def isBlank (b : UInt8) : Prop := b = 32 ∨ b = 9 ∨ b = 10

instance (b : UInt8) : Decidable (isBlank b) := by unfold isBlank; infer_instance

/-- The spec's reading of trimming, in its own words: `t` is `s` with every
leading and every trailing space, tab and newline removed, and the bytes in
between unchanged. -/
def IsTrimOf (s t : GoString) : Prop :=
  ∃ pre suf : GoString, s = pre ++ t ++ suf ∧
    (∀ b ∈ pre, isBlank b) ∧ (∀ b ∈ suf, isBlank b) ∧
    (∀ b, t.head? = some b → ¬ isBlank b) ∧ (∀ b, t.getLast? = some b → ¬ isBlank b)

/-! ## 64-bit integers -/

/-- The constant `math.MaxInt64`. -/
def math.MaxInt64 : Int := 9223372036854775807

/-- The constant `math.MinInt64`. -/
def math.MinInt64 : Int := -9223372036854775808

/-- Whether an integer is a value of type `int64`. -/
def isInt64 (x : Int) : Prop := math.MinInt64 ≤ x ∧ x ≤ math.MaxInt64

instance (x : Int) : Decidable (isInt64 x) := by unfold isInt64; infer_instance

/-- Two's complement wrap-around of an integer into the range of `int64`. -/
def wrapInt64 (x : Int) : Int := (x - math.MinInt64) % 2 ^ 64 + math.MinInt64

/-- Go's `a / b` on `int64`: truncated division; `none` is the run-time panic
on a zero divisor. -/
def int64.div (a b : Int) : Option Int :=
  if b = 0 then none else some (wrapInt64 (Int.tdiv a b))

/-- Go's `a - b` on `int64`. -/
def int64.sub (a b : Int) : Int := wrapInt64 (a - b)

/-! ## `UserRepository.SelectAll` -/

/-- The handle `r.db` as `SelectAll` uses it: the rows, or the error, that the
SELECT of `SelectAll` yields for the parameters `$1` (limit) and `$2` (page),
scanning included. -/
structure sql.DB (ρ : Type) where
  /-- Run the SELECT of `SelectAll` with its two parameters. -/
  QueryAll : Int → Int → Except GoError (List ρ)

/-- What a call of `SelectAll` leaves behind. -/
structure SelectAllOutcome (ρ : Type) where
  /-- The first result (`none` for a nil pointer). -/
  users : Option (List ρ)
  /-- The second result. -/
  err : Option GoError
  /-- The parameters `(limit, page)` of every query sent to the store, in order. -/
  sent : List (Int × Int)

/-- The local `maxValidBeforeOverflow := (math.MaxInt64 / limit) - 1` of
`SelectAll`; `none` is the panic on `limit = 0`. -/
def UserRepository.maxValidBeforeOverflow (limit : Int) : Option Int :=
  (int64.div math.MaxInt64 limit).map (fun q => int64.sub q 1)

/-- The expression `$1 * ($2::BIGINT - 1)` that the query of `SelectAll` gives
to OFFSET, as an exact integer. -/
def UserRepository.offset (limit page : Int) : Int := limit * (page - 1)

/-- The method `UserRepository.SelectAll`; `none` is a panic. -/
def UserRepository.SelectAll {ρ : Type} (db : sql.DB ρ) (limit page : Int) :
    Option (SelectAllOutcome ρ) :=
  match UserRepository.maxValidBeforeOverflow limit with
  | none => none
  | some maxValidBeforeOverflow =>
    let page := if page > maxValidBeforeOverflow then maxValidBeforeOverflow else page
    match db.QueryAll limit page with
    | Except.error e => some ⟨none, some e, [(limit, page)]⟩
    | Except.ok users => some ⟨some users, none, [(limit, page)]⟩

/-! ## Fixtures of the tests -/

/-- A repository in the manner of the mock of the tests: `InsertList` returns a
fixed text and a fixed error, `FetchListByID` a fixed list and a fixed error. -/
def listRepositoryMock (id : GoString) (e : Option GoError)
    (l : Option model.List) (e2 : Option GoError) : repository.IListRepository Unit where
  InsertList := fun _ _ _ st => ((id, e), st)
  FetchListByID := fun _ _ _ st => ((l, e2), st)

/-- The identifier `4fedb41f-5e44-4e63-9266-4b094bd7ba2d` of the tests. -/
def sampleID : uuid.UUID :=
  ⟨[0x4f, 0xed, 0xb4, 0x1f, 0x5e, 0x44, 0x4e, 0x63, 0x92, 0x66, 0x4b, 0x09, 0x4b, 0xd7,
    0xba, 0x2d], by decide⟩

/-- Another identifier, used as an owner. -/
def sampleOwner : uuid.UUID :=
  ⟨[1, 2, 3, 4, 5, 6, 7, 8, 9, 10, 11, 12, 13, 14, 15, 16], by decide⟩

/-- Another identifier, used as a group. -/
def sampleGroup : uuid.UUID :=
  ⟨[16, 15, 14, 13, 12, 11, 10, 9, 8, 7, 6, 5, 4, 3, 2, 1], by decide⟩

/-- The payload of `TestListService_SaveList`. -/
def samplePayload : transfer.ListCreation :=
  { Name := GoString.ofString "\t   list name\n   ",
    Description := GoString.ofString "\n  description  \n" }

/-- The payload of the test "name cannot be empty". -/
def blankNamePayload : transfer.ListCreation :=
  { Name := GoString.ofString "  \t\t  \n",
    Description := GoString.ofString "\n  description  \n" }

/-- The payload of the test "name too long": a name of 51 bytes. -/
def longNamePayload : transfer.ListCreation :=
  { Name := GoString.ofString "xxxxxxxxxxxxxxxxxxxxxxxxxxxxxxxxxxxxxxxxxxxxxxxxxxX",
    Description := GoString.ofString "\n  description  \n" }

/-- The mock of the tests with `InsertList` returning the given text and error. -/
def insertMock (id : GoString) (e : Option GoError) : repository.IListRepository Unit :=
  listRepositoryMock id e none none

/-- A text that is not a UUID: the last of its 36 bytes is not a hexadecimal digit. -/
def malformedID : GoString := GoString.ofString "4fedb41f-5e44-4e63-9266-4b094bd7ba2g"

/-! ## Panics -/

/-- The outcome of a call that may panic instead of returning. -/
inductive GoResult (α : Type) where
  /-- The call returns. -/
  | returns (a : α)
  /-- The call panics with a value. -/
  | panics (v : String)

/-! ## `UserRepository`: `Insert`, `Update`, `ExistsUserWithEmail`, `SelectByID` -/

/-- Modelled from the spec: `failure.ErrSameEmail` is declared in a file of
package `failure` that is not among the sources; it is the conflict error for a
duplicate email. -/
def failure.ErrSameEmail : GoError := GoError.sentinel "ErrSameEmail"

/-- Modelled from the spec: `failure.ErrNotFound` is declared in a file of
package `failure` that is not among the sources; it is the error of a lookup
that finds nothing. -/
def failure.ErrNotFound : GoError := GoError.sentinel "ErrNotFound"

/-- A row of table `"user"`, with the columns the statements name. -/
structure UserRow where
  /-- Column `user_id`. -/
  user_id : GoString
  /-- Column `first_name`. -/
  first_name : GoString
  /-- Column `middle_name`. -/
  middle_name : GoString
  /-- Column `last_name`. -/
  last_name : GoString
  /-- Column `surname`. -/
  surname : GoString
  /-- Column `picture_url`, which may be NULL. -/
  picture_url : Option GoString
  /-- Column `email`. -/
  email : GoString
  /-- Column `password`. -/
  password : GoString
  /-- Column `created_at`. -/
  created_at : Nat
  /-- Column `updated_at`. -/
  updated_at : Nat
deriving DecidableEq, Repr

/-- The record `transfer.User`, as the SELECT lists of the repository fill it. -/
structure transfer.User where
  /-- From `"user_id" AS "id"`. -/
  ID : GoString
  /-- From `first_name`. -/
  FirstName : GoString
  /-- From `middle_name`. -/
  MiddleName : GoString
  /-- From `last_name`. -/
  LastName : GoString
  /-- From `surname`. -/
  Surname : GoString
  /-- From `picture_url`. -/
  PictureUrl : Option GoString
  /-- From `email`. -/
  Email : GoString
  /-- From `created_at`. -/
  CreatedAt : Nat
  /-- From `updated_at`. -/
  UpdatedAt : Nat
deriving DecidableEq, Repr

/-- The payload `transfer.UserCreation`, with the fields `Insert` reads. -/
structure transfer.UserCreation where
  /-- The first name. -/
  FirstName : GoString
  /-- The middle name. -/
  MiddleName : GoString
  /-- The last name. -/
  LastName : GoString
  /-- The surname. -/
  Surname : GoString
  /-- The email. -/
  Email : GoString
  /-- The password. -/
  Password : GoString
deriving DecidableEq, Repr

/-- The payload `transfer.UserUpdate`, with the fields `Update` reads. -/
structure transfer.UserUpdate where
  /-- The first name. -/
  FirstName : GoString
  /-- The middle name. -/
  MiddleName : GoString
  /-- The last name. -/
  LastName : GoString
  /-- The surname. -/
  Surname : GoString
deriving DecidableEq, Repr

/-- A statement of `UserRepository` with the values of its parameters. -/
inductive SqlStmt where
  /-- The SELECT of `ExistsUserWithEmail`. -/
  | selectIDByEmail (email : GoString)
  /-- The INSERT of `Insert`. -/
  | insertUser (next : transfer.UserCreation)
  /-- The SELECT of `SelectByID`. -/
  | selectByID (id : GoString)
  /-- The UPDATE of `Update`. -/
  | updateUser (id : GoString) (up : transfer.UserUpdate)
deriving DecidableEq, Repr

/-- The database behind `r.db`: the rows of table `"user"`, the clock behind
`now()`, the function `lower` of the server, the row of column defaults that an
INSERT starts from, and the failures of the driver: the error, if any, with
which it answers a statement, and the error, if any, with which the result of a
statement answers `RowsAffected`. -/
structure UserStore where
  /-- The rows of table `"user"`. -/
  rows : List UserRow
  /-- The time `now()` yields. -/
  now : Nat
  /-- The SQL function `lower`. -/
  lower : GoString → GoString
  /-- The values the column defaults give a new row. -/
  defaults : List UserRow → UserRow
  /-- The error with which the driver answers a statement, if it fails it. -/
  fault : SqlStmt → Option GoError
  /-- The error with which `RowsAffected` answers, if it fails. -/
  rowsAffectedFault : SqlStmt → Option GoError

/-- What a method of `UserRepository` leaves behind. -/
structure UserOutcome (α : Type) where
  /-- The first result. -/
  value : α
  /-- The second result. -/
  err : Option GoError
  /-- The statements the database executed, in order. -/
  executed : List SqlStmt
  /-- The database after the call. -/
  db : UserStore

/-- The row a SELECT list of the repository yields, scanned into `transfer.User`. -/
def UserRow.toUser (row : UserRow) : transfer.User :=
  { ID := row.user_id, FirstName := row.first_name, MiddleName := row.middle_name,
    LastName := row.last_name, Surname := row.surname, PictureUrl := row.picture_url,
    Email := row.email, CreatedAt := row.created_at, UpdatedAt := row.updated_at }

/-- The rows of `SELECT "user_id" FROM "user" WHERE lower("email") = lower($1)`. -/
def UserStore.selectIDByEmail (db : UserStore) (email : GoString) : List GoString :=
  (db.rows.filter (fun row => db.lower row.email = db.lower email)).map (fun row => row.user_id)

/-- The rows of `SELECT ... FROM "user" WHERE "user_id" = $1`. -/
def UserStore.selectByID (db : UserStore) (id : GoString) : List UserRow :=
  db.rows.filter (fun row => row.user_id = id)

/-- The SQL function `trim` with one argument: spaces removed at both ends. -/
def sqlTrim (s : GoString) : GoString :=
  ((s.dropWhile (fun b => b = 32)).reverse.dropWhile (fun b => b = 32)).reverse

/-- The expression `COALESCE(NULLIF(trim($n), ''), "column")`. -/
def sqlCoalesceTrim (param column : GoString) : GoString :=
  if sqlTrim param = [] then column else sqlTrim param

/-- The effect of the UPDATE of `Update` on one row. -/
def UserStore.updateRow (db : UserStore) (id : GoString) (up : transfer.UserUpdate)
    (row : UserRow) : UserRow :=
  if row.user_id = id then
    { row with
      first_name := sqlCoalesceTrim up.FirstName row.first_name,
      middle_name := sqlCoalesceTrim up.MiddleName row.middle_name,
      last_name := sqlCoalesceTrim up.LastName row.last_name,
      surname := sqlCoalesceTrim up.Surname row.surname,
      updated_at := db.now }
  else row

/-- The row the INSERT of `Insert` adds: the six values over the column defaults. -/
def UserStore.newRow (db : UserStore) (next : transfer.UserCreation) : UserRow :=
  { db.defaults db.rows with
    first_name := next.FirstName, middle_name := next.MiddleName,
    last_name := next.LastName, surname := next.Surname,
    email := next.Email, password := next.Password }

/-- The method `UserRepository.ExistsUserWithEmail`: `db.Exec` of the SELECT,
then `RowsAffected` of its result, which for this driver is the number of rows
selected. -/
def UserRepository.ExistsUserWithEmail (db : UserStore) (email : GoString) :
    UserOutcome Bool :=
  let stmt := SqlStmt.selectIDByEmail email
  match db.fault stmt with
  | some err => ⟨false, some err, [], db⟩
  | none =>
    match db.rowsAffectedFault stmt with
    | some err => ⟨false, some err, [stmt], db⟩
    | none =>
      let count : Int := (db.selectIDByEmail email).length
      ⟨decide (count ≥ 1), none, [stmt], db⟩

/-- The method `UserRepository.SelectByID`: `db.Query` of the SELECT, then
`sqlscan.ScanOne`, which wants exactly one row and reports none as not found. -/
def UserRepository.SelectByID (db : UserStore) (id : GoString) :
    UserOutcome (Option transfer.User) :=
  let stmt := SqlStmt.selectByID id
  match db.fault stmt with
  | some err => ⟨none, some err, [], db⟩
  | none =>
    match db.selectByID id with
    | [] => ⟨none, some failure.ErrNotFound, [stmt], db⟩
    | [row] => ⟨some row.toUser, none, [stmt], db⟩
    | _ :: _ :: _ => ⟨none, some (GoError.other 0), [stmt], db⟩

/-- The method `UserRepository.Insert`; a nil payload makes it panic on
`next.Email`. -/
def UserRepository.Insert (db : UserStore) (next : Option transfer.UserCreation) :
    GoResult (UserOutcome (Option transfer.User)) :=
  match next with
  | none => GoResult.panics "invalid memory address or nil pointer dereference"
  | some next =>
    let ex := UserRepository.ExistsUserWithEmail db next.Email
    match ex.err with
    | some err => GoResult.returns ⟨none, some err, ex.executed, ex.db⟩
    | none =>
      if ex.value then
        GoResult.returns ⟨none, some failure.ErrSameEmail, ex.executed, ex.db⟩
      else
        let stmt := SqlStmt.insertUser next
        match ex.db.fault stmt with
        | some err => GoResult.returns ⟨none, some err, ex.executed, ex.db⟩
        | none =>
          let row := ex.db.newRow next
          GoResult.returns ⟨some row.toUser, none, ex.executed ++ [stmt],
            { ex.db with rows := ex.db.rows ++ [row] }⟩

/-- The method `UserRepository.Update`; a nil payload makes it panic on
`up.FirstName`, once `SelectByID` has returned a user. -/
def UserRepository.Update (db : UserStore) (userID : GoString)
    (up : Option transfer.UserUpdate) : GoResult (UserOutcome Bool) :=
  let sel := UserRepository.SelectByID db userID
  match sel.err, sel.value with
  | some err, _ => GoResult.returns ⟨false, some err, sel.executed, sel.db⟩
  | none, none => GoResult.panics "invalid memory address or nil pointer dereference"
  | none, some actual =>
    match up with
    | none => GoResult.panics "invalid memory address or nil pointer dereference"
    | some up =>
      if actual.FirstName = up.FirstName ∧ actual.MiddleName = up.MiddleName ∧
          actual.LastName = up.LastName ∧ actual.Surname = up.Surname then
        GoResult.returns ⟨false, none, sel.executed, sel.db⟩
      else
        let stmt := SqlStmt.updateUser userID up
        match sel.db.fault stmt with
        | some err => GoResult.returns ⟨false, some err, sel.executed, sel.db⟩
        | none =>
          let db2 := { sel.db with rows := sel.db.rows.map (sel.db.updateRow userID up) }
          match sel.db.rowsAffectedFault stmt with
          | some err => GoResult.returns ⟨false, some err, sel.executed ++ [stmt], db2⟩
          | none =>
            let count : Int := (sel.db.selectByID userID).length
            GoResult.returns ⟨decide (count ≥ 1), none, sel.executed ++ [stmt], db2⟩

/-- A stored user for the examples. -/
def sampleUserRow : UserRow :=
  { user_id := sampleID.String,
    first_name := GoString.ofString "Ada", middle_name := GoString.ofString "Augusta",
    last_name := GoString.ofString "King", surname := GoString.ofString "Lovelace",
    picture_url := none, email := GoString.ofString "Ada@Example.com",
    password := GoString.ofString "secret", created_at := 1, updated_at := 1 }

/-- A database for the examples: one stored user, ASCII lower-casing, a driver
that does not fail. -/
def sampleUserStore : UserStore :=
  { rows := [sampleUserRow], now := 2,
    lower := fun s => s.map strings.lowerByte,
    defaults := fun _ =>
      { sampleUserRow with user_id := sampleOwner.String, created_at := 2, updated_at := 2 },
    fault := fun _ => none, rowsAffectedFault := fun _ => none }

/-- A creation payload whose email is the stored one in another letter case. -/
def sampleUserCreation : transfer.UserCreation :=
  { FirstName := GoString.ofString "Ada", MiddleName := [], LastName := [],
    Surname := GoString.ofString "Byron", Email := GoString.ofString "ada@example.COM",
    Password := GoString.ofString "other" }

/-- An update payload that repeats the four stored names. -/
def sampleUserUpdate : transfer.UserUpdate :=
  { FirstName := GoString.ofString "Ada", MiddleName := GoString.ofString "Augusta",
    LastName := GoString.ofString "King", Surname := GoString.ofString "Lovelace" }

/-! ## Task and group services

The files of `TaskService` and `GroupService` are not among the sources: only
their tests and the interface `TaskRepository` are. The definitions of this
section follow the spec (sections 4.1, 4.2, 4.5 and 4.6) and the calls the tests
make. -/

/-- The type `types.TaskPriority`, with its zero value. -/
inductive types.TaskPriority where
  /-- The zero value: no priority given. -/
  | unset
  /-- Low priority. -/
  | low
  /-- Medium priority. -/
  | medium
  /-- High priority. -/
  | high
deriving DecidableEq, Repr

/-- The type `types.TaskStatus`, with its zero value. -/
inductive types.TaskStatus where
  /-- The zero value: no status given. -/
  | unset
  /-- An incomplete task. -/
  | incomplete
  /-- A complete task. -/
  | complete
deriving DecidableEq, Repr

/-- The payload `transfer.TaskCreation`, with the fields the tests fill. -/
structure transfer.TaskCreation where
  /-- The title. -/
  Title : GoString
  /-- The headline. -/
  Headline : GoString
  /-- The description. -/
  Description : GoString
  /-- The priority. -/
  Priority : types.TaskPriority
  /-- The status. -/
  Status : types.TaskStatus
  /-- The time of the reminder; 0 is the zero time. -/
  RemindAt : Nat
  /-- The due date; 0 is the zero time. -/
  DueDate : Nat
deriving DecidableEq, Repr

/-- The record `model.Task`, with the fields the tests fill. -/
structure model.Task where
  /-- The identifier of the task. -/
  ID : uuid.UUID
  /-- The owner of the task. -/
  OwnerID : uuid.UUID
  /-- The list of the task. -/
  ListID : uuid.UUID
  /-- The position of the task in its list. -/
  PositionInList : Nat
  /-- The title. -/
  Title : GoString
  /-- The headline. -/
  Headline : GoString
  /-- The description. -/
  Description : GoString
  /-- The priority. -/
  Priority : types.TaskPriority
  /-- The status. -/
  Status : types.TaskStatus
  /-- Whether the task is pinned. -/
  IsPinned : Bool
deriving DecidableEq, Repr

/-- The request `types.Pagination`. -/
structure types.Pagination where
  /-- The page. -/
  Page : Int
  /-- The rows per page. -/
  RPP : Int
deriving DecidableEq, Repr

/-- The envelope `types.Result[T]`. -/
structure types.Result (α : Type) where
  /-- The page. -/
  Page : Int
  /-- The rows per page. -/
  RPP : Int
  /-- The number of elements in the payload. -/
  Retrieved : Int
  /-- The elements. -/
  Payload : List α
deriving DecidableEq, Repr

/-- The methods `Save` and `Fetch` of the interface `TaskRepository`, over a
store of type `σ`. -/
structure repository.TaskRepository (σ : Type) where
  /-- Save a task and return the text of its identifier. -/
  Save : GoString → GoString → transfer.TaskCreation → σ → (GoString × Option GoError) × σ
  /-- Fetch the tasks of a list. -/
  Fetch : GoString → GoString → Int → Int → GoString → GoString → σ →
    (List model.Task × Option GoError) × σ

/-- Modelled from the spec: the interface of the group repository is not among
the sources; this is its method `Fetch` as `TestGroupService_FindGroups` calls
it, for groups of type `γ` over a store of type `σ`. -/
structure repository.GroupRepository (σ γ : Type) where
  /-- Fetch the groups of an owner. -/
  Fetch : GoString → Int → Int → GoString → GoString → σ → (List γ × Option GoError) × σ

/-- One call to a task or group repository, with its arguments. -/
inductive ServiceCall where
  /-- A call `Save(ownerID, listID, creation)` of the task repository. -/
  | TaskSave (ownerID listID : GoString) (creation : transfer.TaskCreation)
  /-- A call `Fetch(ownerID, listID, page, rpp, needle, sortExpr)` of the task repository. -/
  | TaskFetch (ownerID listID : GoString) (page rpp : Int) (needle sortExpr : GoString)
  /-- A call `Fetch(ownerID, page, rpp, needle, sortExpr)` of the group repository. -/
  | GroupFetch (ownerID : GoString) (page rpp : Int) (needle sortExpr : GoString)
deriving DecidableEq, Repr

/-- What a call of `TaskService.Save` leaves behind. -/
structure TaskSaveOutcome (σ : Type) where
  /-- The first result. -/
  insertedID : uuid.UUID
  /-- The second result. -/
  err : Option GoError
  /-- The caller's payload after the call (`none` for a nil pointer). -/
  creation : Option transfer.TaskCreation
  /-- The calls made to the repository, in order. -/
  calls : List ServiceCall
  /-- The store after the call. -/
  store : σ

/-- What a listing operation of a service leaves behind. -/
structure FetchOutcome (σ α : Type) where
  /-- The first result (`none` for a nil pointer). -/
  result : Option (types.Result α)
  /-- The second result. -/
  err : Option GoError
  /-- The calls made to the repository, in order. -/
  calls : List ServiceCall
  /-- The store after the call. -/
  store : σ

/-- The number of characters of a well-formed UTF-8 text: its bytes that are
not continuation bytes `10xxxxxx`. -/
def characterCount (s : GoString) : Nat :=
  (s.filter (fun b => b &&& 192 != 128)).length

/-- The whitespace bytes: space, tab, newline, vertical tab, form feed and
carriage return. -/
def validation.whitespace : GoString := [32, 9, 10, 11, 12, 13]

/-- Whether a byte is one of the six whitespace bytes. -/
def isWhitespace (b : UInt8) : Prop :=
  b = 32 ∨ b = 9 ∨ b = 10 ∨ b = 11 ∨ b = 12 ∨ b = 13

instance (b : UInt8) : Decidable (isWhitespace b) := by unfold isWhitespace; infer_instance

/-- Modelled from the spec: the helper `trim` is not among the sources;
"`trim(s)` strips leading/trailing whitespace (including tabs/newlines)". -/
def validation.trim (s : GoString) : GoString := strings.Trim s validation.whitespace

/-- Modelled from the spec: the helper `boundedLength` is not among the sources;
"`boundedLength(field, ownerStruct, value, max)` fails with
`TooLongError{field, max}` when `len(trim(value)) > max`", where the length is
the one of the data model, counted in characters ("1–128 characters after
trimming"). -/
def validation.boundedLength (field ownerStruct : String) (value : GoString) (max : Nat) :
    Option GoError :=
  if characterCount (validation.trim value) > max then
    some (GoError.tooLong field ownerStruct max)
  else none

/-- Modelled from the spec: the helper `defaultIfEmpty` is not among the
sources; "`defaultIfEmpty(value, fallback)` substitutes `fallback` when
`trim(value) == \"\"`". -/
def validation.defaultIfEmpty (value fallback : GoString) : GoString :=
  if validation.trim value = [] then fallback else value

/-- Modelled from the spec: the helper `normalize` is not among the sources;
"if `page < 1`, set `page = 1`; if `rowsPerPage < 1`, set `rowsPerPage = 10`". -/
def pagination.normalize (p : types.Pagination) : types.Pagination :=
  let p := if p.Page < 1 then { p with Page := 1 } else p
  if p.RPP < 1 then { p with RPP := 10 } else p

/-- Modelled from the spec: the helper `wrap` is not among the sources;
"`wrap(page, rpp, payload)` returns `{page, rowsPerPage, retrieved:
len(payload), payload}`". -/
def pagination.wrap {α : Type} (page rpp : Int) (payload : List α) : types.Result α :=
  { Page := page, RPP := rpp, Retrieved := (payload.length : Int), Payload := payload }

/-- Modelled from the spec: the method `TaskService.Save` is not among the
sources. It rejects an unset `ownerID`, `listID` or `creation`; trims the three
texts of the payload in place; applies the bounds 128, 64 and 512; defaults the
title to "Untitled", the priority to medium and the status to incomplete;
calls `Save` of the repository with the texts of the identifiers and the
payload; returns a repository error as it is, and otherwise parses the text of
the new identifier. -/
def TaskService.Save {σ : Type} (r : repository.TaskRepository σ) (st : σ)
    (ownerID listID : uuid.UUID) (creation : Option transfer.TaskCreation) :
    TaskSaveOutcome σ :=
  if uuid.Nil = ownerID then
    ⟨uuid.Nil, some (failure.NewNilParameterError "Save" "ownerID"), creation, [], st⟩
  else if uuid.Nil = listID then
    ⟨uuid.Nil, some (failure.NewNilParameterError "Save" "listID"), creation, [], st⟩
  else
    match creation with
    | none =>
      ⟨uuid.Nil, some (failure.NewNilParameterError "Save" "creation"), none, [], st⟩
    | some c =>
      let c := { c with Title := validation.trim c.Title,
                        Headline := validation.trim c.Headline,
                        Description := validation.trim c.Description }
      match validation.boundedLength "Title" "creation" c.Title 128 with
      | some e => ⟨uuid.Nil, some e, some c, [], st⟩
      | none =>
      match validation.boundedLength "Headline" "creation" c.Headline 64 with
      | some e => ⟨uuid.Nil, some e, some c, [], st⟩
      | none =>
      match validation.boundedLength "Description" "creation" c.Description 512 with
      | some e => ⟨uuid.Nil, some e, some c, [], st⟩
      | none =>
        let c := { c with Title :=
          validation.defaultIfEmpty c.Title (GoString.ofString "Untitled") }
        let c := if c.Priority = types.TaskPriority.unset then
          { c with Priority := types.TaskPriority.medium } else c
        let c := if c.Status = types.TaskStatus.unset then
          { c with Status := types.TaskStatus.incomplete } else c
        let res := r.Save ownerID.String listID.String c st
        let call := ServiceCall.TaskSave ownerID.String listID.String c
        match res.1.2 with
        | some e => ⟨uuid.Nil, some e, some c, [call], res.2⟩
        | none =>
          let parsed := uuid.Parse res.1.1
          ⟨parsed.1, parsed.2, some c, [call], res.2⟩

/-- Modelled from the spec: the method `TaskService.Fetch` is not among the
sources. It rejects an unset `ownerID`, `listID` or `pagination`; normalises the
pagination; trims `needle` and `sortExpr`; calls `Fetch` of the repository;
returns a repository error as it is, and otherwise wraps the payload. -/
def TaskService.Fetch {σ : Type} (r : repository.TaskRepository σ) (st : σ)
    (ownerID listID : uuid.UUID) (pag : Option types.Pagination)
    (needle sortExpr : GoString) : FetchOutcome σ model.Task :=
  if uuid.Nil = ownerID then
    ⟨none, some (failure.NewNilParameterError "Fetch" "ownerID"), [], st⟩
  else if uuid.Nil = listID then
    ⟨none, some (failure.NewNilParameterError "Fetch" "listID"), [], st⟩
  else
    match pag with
    | none => ⟨none, some (failure.NewNilParameterError "Fetch" "pagination"), [], st⟩
    | some p =>
      let p := pagination.normalize p
      let needle := validation.trim needle
      let sortExpr := validation.trim sortExpr
      let res := r.Fetch ownerID.String listID.String p.Page p.RPP needle sortExpr st
      let call := ServiceCall.TaskFetch ownerID.String listID.String p.Page p.RPP needle sortExpr
      match res.1.2 with
      | some e => ⟨none, some e, [call], res.2⟩
      | none => ⟨some (pagination.wrap p.Page p.RPP res.1.1), none, [call], res.2⟩

/-- Modelled from the spec: the method `GroupService.Fetch` is not among the
sources. It follows the same steps as `TaskService.Fetch`, for an owner alone. -/
def GroupService.Fetch {σ γ : Type} (r : repository.GroupRepository σ γ) (st : σ)
    (ownerID : uuid.UUID) (pag : Option types.Pagination)
    (needle sortExpr : GoString) : FetchOutcome σ γ :=
  if uuid.Nil = ownerID then
    ⟨none, some (failure.NewNilParameterError "Fetch" "ownerID"), [], st⟩
  else
    match pag with
    | none => ⟨none, some (failure.NewNilParameterError "Fetch" "pagination"), [], st⟩
    | some p =>
      let p := pagination.normalize p
      let needle := validation.trim needle
      let sortExpr := validation.trim sortExpr
      let res := r.Fetch ownerID.String p.Page p.RPP needle sortExpr st
      let call := ServiceCall.GroupFetch ownerID.String p.Page p.RPP needle sortExpr
      match res.1.2 with
      | some e => ⟨none, some e, [call], res.2⟩
      | none => ⟨some (pagination.wrap p.Page p.RPP res.1.1), none, [call], res.2⟩

/-- A task repository in the manner of the mock of the tests: `Save` returns a
fixed text and error, `Fetch` a fixed payload and error. -/
def taskRepositoryMock (id : GoString) (e : Option GoError) (tasks : List model.Task)
    (e2 : Option GoError) : repository.TaskRepository Unit where
  Save := fun _ _ _ st => ((id, e), st)
  Fetch := fun _ _ _ _ _ _ st => ((tasks, e2), st)

/-- A group repository in the manner of the mock of the tests. -/
def groupRepositoryMock {γ : Type} (groups : List γ) (e : Option GoError) :
    repository.GroupRepository Unit γ where
  Fetch := fun _ _ _ _ _ st => ((groups, e), st)

/-- The payload of the test "must default values": no title, priority or status. -/
def defaultsCreation : transfer.TaskCreation :=
  { Title := [], Headline := GoString.ofString "\t  Headline \n",
    Description := GoString.ofString " \n Description\t ",
    Priority := types.TaskPriority.unset, Status := types.TaskStatus.unset,
    RemindAt := 0, DueDate := 0 }

/-- The payload of the test "128 < len(creation.Title)": a title of 129 bytes `x`. -/
def longTitleCreation : transfer.TaskCreation :=
  { Title := List.replicate 129 120, Headline := [], Description := [],
    Priority := types.TaskPriority.unset, Status := types.TaskStatus.unset,
    RemindAt := 0, DueDate := 0 }

/-- Three tasks, as in `TestTaskService_Fetch`. -/
def sampleTasks : List model.Task :=
  [sampleID, sampleOwner, sampleGroup].map fun u =>
    { ID := u, OwnerID := sampleOwner, ListID := sampleGroup, PositionInList := 0,
      Title := [], Headline := [], Description := [],
      Priority := types.TaskPriority.unset, Status := types.TaskStatus.unset,
      IsPinned := false }

/-- Modelled from the spec: the payload after the trimming step of
`TaskService.Save`, which is not among the sources. -/
def TaskService.trimmed (c : transfer.TaskCreation) : transfer.TaskCreation :=
  { c with Title := validation.trim c.Title,
           Headline := validation.trim c.Headline,
           Description := validation.trim c.Description }

/-- Modelled from the spec: the payload after the three defaulting steps of
`TaskService.Save`, which is not among the sources. -/
def TaskService.defaulted (c : transfer.TaskCreation) : transfer.TaskCreation :=
  let c := { c with Title :=
    validation.defaultIfEmpty c.Title (GoString.ofString "Untitled") }
  let c := if c.Priority = types.TaskPriority.unset then
    { c with Priority := types.TaskPriority.medium } else c
  if c.Status = types.TaskStatus.unset then
    { c with Status := types.TaskStatus.incomplete } else c

/-- Whether a text neither begins nor ends with a whitespace byte. -/
def IsTrimmed (t : GoString) : Prop :=
  (∀ b, t.head? = some b → ¬ isWhitespace b) ∧ (∀ b, t.getLast? = some b → ¬ isWhitespace b)

/-! ## `taskRepository` -/

set_option linter.unusedVariables false

/-- The struct `taskRepository`: the handle `db`, over a database of type `σ`. -/
structure taskRepository (σ : Type) where
  /-- The handle of the database. -/
  db : σ

/-- The constructor `NewTaskRepository`. -/
def NewTaskRepository {σ : Type} (db : σ) : taskRepository σ := { db := db }

/-- The method `taskRepository.Save`: the results and the database afterwards,
or the panic. -/
def taskRepository.Save {σ : Type} (r : taskRepository σ) (ownerID listID : GoString)
    (creation : Option transfer.TaskCreation) : GoResult ((GoString × Option GoError) × σ) :=
  GoResult.panics "implement me"

/-- The method `taskRepository.Reorder`; `position` is a `uint64`. -/
def taskRepository.Reorder {σ : Type} (r : taskRepository σ)
    (ownerID listID taskID : GoString) (position : Nat) :
    GoResult ((Bool × Option GoError) × σ) :=
  GoResult.panics "implement me"

/-- The method `taskRepository.Move`. -/
def taskRepository.Move {σ : Type} (r : taskRepository σ)
    (ownerID taskID targetListID : GoString) : GoResult ((Bool × Option GoError) × σ) :=
  GoResult.panics "implement me"

/-- The method `taskRepository.Delete`. -/
def taskRepository.Delete {σ : Type} (r : taskRepository σ)
    (ownerID listID taskID : GoString) : GoResult (Option GoError × σ) :=
  GoResult.panics "implement me"

set_option linter.unusedVariables true

/-- An operation on the tasks of a list, with its arguments. -/
inductive TaskOp where
  /-- A call of `Save`. -/
  | Save (ownerID listID : GoString) (creation : Option transfer.TaskCreation)
  /-- A call of `Reorder`. -/
  | Reorder (ownerID listID taskID : GoString) (position : Nat)
  /-- A call of `Move`. -/
  | Move (ownerID taskID targetListID : GoString)
  /-- A call of `Delete`. -/
  | Delete (ownerID listID taskID : GoString)

/-- One operation applied by the repository: the database afterwards, or the
panic. -/
def taskRepository.apply {σ : Type} (r : taskRepository σ) : TaskOp → GoResult σ
  | TaskOp.Save o l c =>
    match r.Save o l c with
    | GoResult.returns res => GoResult.returns res.2
    | GoResult.panics v => GoResult.panics v
  | TaskOp.Reorder o l t p =>
    match r.Reorder o l t p with
    | GoResult.returns res => GoResult.returns res.2
    | GoResult.panics v => GoResult.panics v
  | TaskOp.Move o t l =>
    match r.Move o t l with
    | GoResult.returns res => GoResult.returns res.2
    | GoResult.panics v => GoResult.panics v
  | TaskOp.Delete o l t =>
    match r.Delete o l t with
    | GoResult.returns res => GoResult.returns res.2
    | GoResult.panics v => GoResult.panics v

/-- A sequence of operations applied in order, each on the database the
previous one left: the database at the end, or the first panic. -/
def taskRepository.run {σ : Type} (r : taskRepository σ) : List TaskOp → GoResult σ
  | [] => GoResult.returns r.db
  | op :: ops =>
    match r.apply op with
    | GoResult.returns db => taskRepository.run { db := db } ops
    | GoResult.panics v => GoResult.panics v

/-- The payload of `TestTaskRepository_Save`. -/
def storedTaskCreation : transfer.TaskCreation :=
  { Title := GoString.ofString "task title", Headline := GoString.ofString "task headline",
    Description := GoString.ofString "task description",
    Priority := types.TaskPriority.medium, Status := types.TaskStatus.incomplete,
    RemindAt := 0, DueDate := 0 }

/-- The identifier `taskID` of the tests of the task repository. -/
def taskIDText : GoString := GoString.ofString "f8d5b3a2-80f0-4460-bc40-2762141ffc06"

/-- A payload accepted by `SaveList` whose name begins with a carriage return
and whose description ends with a form feed. -/
def carriageReturnPayload : transfer.ListCreation :=
  { Name := 13 :: GoString.ofString "list name",
    Description := GoString.ofString "description" ++ [12] }

/-! ## Characters of a name -/

/-- A name of 26 characters, each of two bytes in UTF-8. -/
def accentedName : String := "éééééééééééééééééééééééééé"

/-- A payload whose name has 26 characters and 52 bytes. -/
def accentedNamePayload : transfer.ListCreation :=
  { Name := GoString.ofString accentedName,
    Description := GoString.ofString "description" }

/-! ## More fixtures of `UserRepository` -/

/-- An update payload whose four fields are blank. -/
def blankUserUpdate : transfer.UserUpdate :=
  { FirstName := [], MiddleName := GoString.ofString "  ", LastName := [], Surname := [] }

/-- The four name columns of a row. -/
def UserRow.names (row : UserRow) : GoString × GoString × GoString × GoString :=
  (row.first_name, row.middle_name, row.last_name, row.surname)

/-- A database handle for `SelectAll` that yields no row and no error. -/
def emptyDB : sql.DB Unit := { QueryAll := fun _ _ => Except.ok [] }

/-! ## The other methods of `taskRepository` -/

/-- Modelled from the spec: the payload `transfer.TaskUpdate` is declared in a
file that is not among the sources; it carries the free texts of a task. -/
structure transfer.TaskUpdate where
  /-- The title. -/
  Title : GoString
  /-- The headline. -/
  Headline : GoString
  /-- The description. -/
  Description : GoString
deriving DecidableEq, Repr

set_option linter.unusedVariables false

/-- The method `taskRepository.Duplicate`. -/
def taskRepository.Duplicate {σ : Type} (r : taskRepository σ) (ownerID taskID : GoString) :
    GoResult ((GoString × Option GoError) × σ) :=
  GoResult.panics "implement me"

/-- The method `taskRepository.FetchByID`. -/
def taskRepository.FetchByID {σ : Type} (r : taskRepository σ)
    (ownerID listID taskID : GoString) : GoResult ((Option model.Task × Option GoError) × σ) :=
  GoResult.panics "implement me"

/-- The method `taskRepository.Fetch`. -/
def taskRepository.Fetch {σ : Type} (r : taskRepository σ) (ownerID listID : GoString)
    (page rpp : Int) (needle sortExpr : GoString) :
    GoResult ((List model.Task × Option GoError) × σ) :=
  GoResult.panics "implement me"

/-- The method `taskRepository.FetchFromToday`. -/
def taskRepository.FetchFromToday {σ : Type} (r : taskRepository σ) (ownerID : GoString)
    (page rpp : Int) (needle sortExpr : GoString) :
    GoResult ((List model.Task × Option GoError) × σ) :=
  GoResult.panics "implement me"

/-- The method `taskRepository.FetchFromTomorrow`. -/
def taskRepository.FetchFromTomorrow {σ : Type} (r : taskRepository σ) (ownerID : GoString)
    (page rpp : Int) (needle sortExpr : GoString) :
    GoResult ((List model.Task × Option GoError) × σ) :=
  GoResult.panics "implement me"

/-- The method `taskRepository.FetchFromDeferred`. -/
def taskRepository.FetchFromDeferred {σ : Type} (r : taskRepository σ) (ownerID : GoString)
    (page rpp : Int) (needle sortExpr : GoString) :
    GoResult ((List model.Task × Option GoError) × σ) :=
  GoResult.panics "implement me"

/-- The method `taskRepository.Update`. -/
def taskRepository.Update {σ : Type} (r : taskRepository σ)
    (ownerID listID taskID : GoString) (update : Option transfer.TaskUpdate) :
    GoResult ((Bool × Option GoError) × σ) :=
  GoResult.panics "implement me"

/-- The method `taskRepository.SetReminder`; the time is a number. -/
def taskRepository.SetReminder {σ : Type} (r : taskRepository σ)
    (ownerID listID taskID : GoString) (remindAt : Nat) :
    GoResult ((Bool × Option GoError) × σ) :=
  GoResult.panics "implement me"

/-- The method `taskRepository.SetPriority`. -/
def taskRepository.SetPriority {σ : Type} (r : taskRepository σ)
    (ownerID listID taskID : GoString) (priority : types.TaskPriority) :
    GoResult ((Bool × Option GoError) × σ) :=
  GoResult.panics "implement me"

/-- The method `taskRepository.SetDueDate`; the time is a number. -/
def taskRepository.SetDueDate {σ : Type} (r : taskRepository σ)
    (ownerID listID taskID : GoString) (dueDate : Nat) :
    GoResult ((Bool × Option GoError) × σ) :=
  GoResult.panics "implement me"

/-- The method `taskRepository.Complete`. -/
def taskRepository.Complete {σ : Type} (r : taskRepository σ)
    (ownerID listID taskID : GoString) : GoResult ((Bool × Option GoError) × σ) :=
  GoResult.panics "implement me"

/-- The method `taskRepository.Resume`. -/
def taskRepository.Resume {σ : Type} (r : taskRepository σ)
    (ownerID listID taskID : GoString) : GoResult ((Bool × Option GoError) × σ) :=
  GoResult.panics "implement me"

/-- The method `taskRepository.Pin`. -/
def taskRepository.Pin {σ : Type} (r : taskRepository σ)
    (ownerID listID taskID : GoString) : GoResult ((Bool × Option GoError) × σ) :=
  GoResult.panics "implement me"

/-- The method `taskRepository.Unpin`. -/
def taskRepository.Unpin {σ : Type} (r : taskRepository σ)
    (ownerID listID taskID : GoString) : GoResult ((Bool × Option GoError) × σ) :=
  GoResult.panics "implement me"

/-- The method `taskRepository.Today`. -/
def taskRepository.Today {σ : Type} (r : taskRepository σ) (ownerID taskID : GoString) :
    GoResult ((Bool × Option GoError) × σ) :=
  GoResult.panics "implement me"

/-- The method `taskRepository.Tomorrow`. -/
def taskRepository.Tomorrow {σ : Type} (r : taskRepository σ) (ownerID taskID : GoString) :
    GoResult ((Bool × Option GoError) × σ) :=
  GoResult.panics "implement me"

/-- The method `taskRepository.Defer`. -/
def taskRepository.Defer {σ : Type} (r : taskRepository σ) (ownerID taskID : GoString) :
    GoResult ((Bool × Option GoError) × σ) :=
  GoResult.panics "implement me"

/-- The method `taskRepository.Trash`. -/
def taskRepository.Trash {σ : Type} (r : taskRepository σ)
    (ownerID listID taskID : GoString) : GoResult ((Bool × Option GoError) × σ) :=
  GoResult.panics "implement me"

/-- The method `taskRepository.RestoreFromTrash`. -/
def taskRepository.RestoreFromTrash {σ : Type} (r : taskRepository σ)
    (ownerID listID taskID : GoString) : GoResult ((Bool × Option GoError) × σ) :=
  GoResult.panics "implement me"

set_option linter.unusedVariables true

/-- A call of one of the twenty-three methods of `taskRepository`, with its
arguments. -/
inductive TaskCall where
  /-- A call of `Save`. -/
  | Save (ownerID listID : GoString) (creation : Option transfer.TaskCreation)
  /-- A call of `Duplicate`. -/
  | Duplicate (ownerID taskID : GoString)
  /-- A call of `FetchByID`. -/
  | FetchByID (ownerID listID taskID : GoString)
  /-- A call of `Fetch`. -/
  | Fetch (ownerID listID : GoString) (page rpp : Int) (needle sortExpr : GoString)
  /-- A call of `FetchFromToday`. -/
  | FetchFromToday (ownerID : GoString) (page rpp : Int) (needle sortExpr : GoString)
  /-- A call of `FetchFromTomorrow`. -/
  | FetchFromTomorrow (ownerID : GoString) (page rpp : Int) (needle sortExpr : GoString)
  /-- A call of `FetchFromDeferred`. -/
  | FetchFromDeferred (ownerID : GoString) (page rpp : Int) (needle sortExpr : GoString)
  /-- A call of `Update`. -/
  | Update (ownerID listID taskID : GoString) (update : Option transfer.TaskUpdate)
  /-- A call of `Reorder`. -/
  | Reorder (ownerID listID taskID : GoString) (position : Nat)
  /-- A call of `SetReminder`. -/
  | SetReminder (ownerID listID taskID : GoString) (remindAt : Nat)
  /-- A call of `SetPriority`. -/
  | SetPriority (ownerID listID taskID : GoString) (priority : types.TaskPriority)
  /-- A call of `SetDueDate`. -/
  | SetDueDate (ownerID listID taskID : GoString) (dueDate : Nat)
  /-- A call of `Complete`. -/
  | Complete (ownerID listID taskID : GoString)
  /-- A call of `Resume`. -/
  | Resume (ownerID listID taskID : GoString)
  /-- A call of `Pin`. -/
  | Pin (ownerID listID taskID : GoString)
  /-- A call of `Unpin`. -/
  | Unpin (ownerID listID taskID : GoString)
  /-- A call of `Move`. -/
  | Move (ownerID taskID targetListID : GoString)
  /-- A call of `Today`. -/
  | Today (ownerID taskID : GoString)
  /-- A call of `Tomorrow`. -/
  | Tomorrow (ownerID taskID : GoString)
  /-- A call of `Defer`. -/
  | Defer (ownerID taskID : GoString)
  /-- A call of `Trash`. -/
  | Trash (ownerID listID taskID : GoString)
  /-- A call of `RestoreFromTrash`. -/
  | RestoreFromTrash (ownerID listID taskID : GoString)
  /-- A call of `Delete`. -/
  | Delete (ownerID listID taskID : GoString)

/-- What a call hands back to its caller, once the values are forgotten: that
it returned, with or without an error, or the value of its panic. -/
inductive CallEnd (σ : Type) where
  /-- The call returned; the error it returned, and the database it left. -/
  | returned (err : Option GoError) (db : σ)
  /-- The call panicked. -/
  | panicked (v : String)

/-- The end of a method with two results. -/
def CallEnd.ofPair {σ α : Type} : GoResult ((α × Option GoError) × σ) → CallEnd σ
  | GoResult.returns res => CallEnd.returned res.1.2 res.2
  | GoResult.panics v => CallEnd.panicked v

/-- The end of a method whose one result is an error. -/
def CallEnd.ofError {σ : Type} : GoResult (Option GoError × σ) → CallEnd σ
  | GoResult.returns res => CallEnd.returned res.1 res.2
  | GoResult.panics v => CallEnd.panicked v

/-- A call dispatched to its method. -/
def taskRepository.call {σ : Type} (r : taskRepository σ) : TaskCall → CallEnd σ
  | TaskCall.Save o l c => CallEnd.ofPair (r.Save o l c)
  | TaskCall.Duplicate o t => CallEnd.ofPair (r.Duplicate o t)
  | TaskCall.FetchByID o l t => CallEnd.ofPair (r.FetchByID o l t)
  | TaskCall.Fetch o l p n s e => CallEnd.ofPair (r.Fetch o l p n s e)
  | TaskCall.FetchFromToday o p n s e => CallEnd.ofPair (r.FetchFromToday o p n s e)
  | TaskCall.FetchFromTomorrow o p n s e => CallEnd.ofPair (r.FetchFromTomorrow o p n s e)
  | TaskCall.FetchFromDeferred o p n s e => CallEnd.ofPair (r.FetchFromDeferred o p n s e)
  | TaskCall.Update o l t u => CallEnd.ofPair (r.Update o l t u)
  | TaskCall.Reorder o l t p => CallEnd.ofPair (r.Reorder o l t p)
  | TaskCall.SetReminder o l t a => CallEnd.ofPair (r.SetReminder o l t a)
  | TaskCall.SetPriority o l t p => CallEnd.ofPair (r.SetPriority o l t p)
  | TaskCall.SetDueDate o l t d => CallEnd.ofPair (r.SetDueDate o l t d)
  | TaskCall.Complete o l t => CallEnd.ofPair (r.Complete o l t)
  | TaskCall.Resume o l t => CallEnd.ofPair (r.Resume o l t)
  | TaskCall.Pin o l t => CallEnd.ofPair (r.Pin o l t)
  | TaskCall.Unpin o l t => CallEnd.ofPair (r.Unpin o l t)
  | TaskCall.Move o t l => CallEnd.ofPair (r.Move o t l)
  | TaskCall.Today o t => CallEnd.ofPair (r.Today o t)
  | TaskCall.Tomorrow o t => CallEnd.ofPair (r.Tomorrow o t)
  | TaskCall.Defer o t => CallEnd.ofPair (r.Defer o t)
  | TaskCall.Trash o l t => CallEnd.ofPair (r.Trash o l t)
  | TaskCall.RestoreFromTrash o l t => CallEnd.ofPair (r.RestoreFromTrash o l t)
  | TaskCall.Delete o l t => CallEnd.ofError (r.Delete o l t)

/-- The database after a call: the one the call left, or, after a panic, the one
it started from. -/
def taskRepository.storeAfter {σ : Type} (r : taskRepository σ) (c : TaskCall) : σ :=
  match r.call c with
  | CallEnd.returned _ db => db
  | CallEnd.panicked _ => r.db

/-- A creation payload whose title has 65 characters, each of two bytes in UTF-8. -/
def accentedTitleCreation : transfer.TaskCreation :=
  { Title := (List.replicate 65 ()).flatMap (fun _ => [195, 169]),
    Headline := [], Description := [],
    Priority := types.TaskPriority.unset, Status := types.TaskStatus.unset,
    RemindAt := 0, DueDate := 0 }

/-- A list repository whose `InsertList` fails with a `NilParameterError`. -/
def nilParameterMock : repository.IListRepository Unit :=
  insertMock sampleID.String (some (failure.NewNilParameterError "SaveList" "ownerID"))

/-! # Theorems -/

/-! ## Trimming -/

theorem cutset_eq : ListService.cutset = [32, 9, 10] := by decide

theorem contains_cutset (b : UInt8) :
    strings.contains ListService.cutset b = true ↔ isBlank b := by
  rw [cutset_eq]
  simp [strings.contains, isBlank]

theorem Trim_cutset (s : GoString) :
    strings.Trim s ListService.cutset =
      (s.rdropWhile (strings.contains ListService.cutset)).dropWhile
        (strings.contains ListService.cutset) := by
  unfold strings.Trim
  by_cases hs : s = []
  · subst hs; simp [List.rdropWhile]
  · have hc : ListService.cutset ≠ [] := by rw [cutset_eq]; simp
    simp [hs, hc, strings.trimLeftASCII, strings.trimRightASCII, List.rdropWhile]

theorem Trim_of_blank (s : GoString) (h : ∀ b ∈ s, isBlank b) :
    strings.Trim s ListService.cutset = [] := by
  rw [Trim_cutset]
  have : s.rdropWhile (strings.contains ListService.cutset) = [] := by
    rw [List.rdropWhile_eq_nil_iff]
    intro x hx
    exact (contains_cutset x).2 (h x hx)
  rw [this]; rfl

theorem Trim_isTrimOf (s : GoString) : IsTrimOf s (strings.Trim s ListService.cutset) := by
  rw [Trim_cutset]
  generalize hp : strings.contains ListService.cutset = p
  have hblank_p : ∀ b, isBlank b ↔ p b = true := fun b => by rw [← hp]; exact (contains_cutset b).symm
  refine ⟨(s.rdropWhile p).takeWhile p, s.rtakeWhile p, ?_, ?_, ?_, ?_, ?_⟩
  · rw [List.takeWhile_append_dropWhile]
    simp only [List.rdropWhile, List.rtakeWhile, ← List.reverse_append,
      List.takeWhile_append_dropWhile, List.reverse_reverse]
  · intro b hb
    exact (hblank_p b).2 (List.mem_takeWhile_imp hb)
  · intro b hb
    exact (hblank_p b).2 (List.mem_rtakeWhile_imp hb)
  · intro b hb hblank
    have hne : (s.rdropWhile p).dropWhile p ≠ [] := by
      intro h; rw [h] at hb; simp at hb
    have h1 := List.head_dropWhile_not p (s.rdropWhile p) hne
    rw [List.head?_eq_head hne] at hb
    injection hb with hb
    rw [hb] at h1
    rw [(hblank_p b).1 hblank] at h1
    exact absurd h1 (by simp)
  · intro b hb hblank
    have hne : (s.rdropWhile p).dropWhile p ≠ [] := by
      intro h; rw [h] at hb; simp at hb
    have hne2 : s.rdropWhile p ≠ [] := by
      intro h; rw [h] at hne; simp at hne
    have hsuf := List.dropWhile_suffix (l := s.rdropWhile p) p
    have h1 := hsuf.getLast hne
    have h2 := List.rdropWhile_last_not p s hne2
    rw [List.getLast?_eq_getLast _ hne] at hb
    injection hb with hb
    rw [h1] at hb
    rw [hb] at h2
    exact h2 ((hblank_p b).1 hblank)

theorem rdropWhile_append_of_pos {α : Type} (p : α → Bool) (l suf : List α)
    (h : ∀ b ∈ suf, p b = true) : (l ++ suf).rdropWhile p = l.rdropWhile p := by
  simp only [List.rdropWhile, List.reverse_append]
  rw [List.dropWhile_append_of_pos (fun a ha => h a (List.mem_reverse.1 ha))]

theorem IsTrimOf_eq_Trim (s t : GoString) (h : IsTrimOf s t) :
    t = strings.Trim s ListService.cutset := by
  obtain ⟨pre, suf, hs, hpre, hsuf, hhead, hlast⟩ := h
  rw [Trim_cutset, hs]
  generalize hp : strings.contains ListService.cutset = p
  have hblank_p : ∀ b, isBlank b ↔ p b = true :=
    fun b => by rw [← hp]; exact (contains_cutset b).symm
  rw [rdropWhile_append_of_pos p _ suf (fun b hb => (hblank_p b).1 (hsuf b hb))]
  rcases List.eq_nil_or_concat t with ht | ⟨t0, c, ht⟩
  · subst ht
    have hnil : (pre ++ []).rdropWhile p = [] := by
      rw [List.rdropWhile_eq_nil_iff]
      intro x hx
      exact (hblank_p x).1 (hpre x (by simpa using hx))
    rw [hnil]; rfl
  · rw [List.concat_eq_append] at ht
    subst ht
    have hc : ¬ p c = true := fun hpc =>
      hlast c (List.getLast?_concat t0) ((hblank_p c).2 hpc)
    rw [← List.append_assoc, List.rdropWhile_concat_neg _ _ _ hc, List.append_assoc,
      List.dropWhile_append_of_pos (fun a ha => (hblank_p a).1 (hpre a ha))]
    cases hcase : t0 ++ [c] with
    | nil => simp at hcase
    | cons a rest =>
      have ha : ¬ p a = true := fun hpa =>
        hhead a (by rw [hcase]; rfl) ((hblank_p a).2 hpa)
      rw [List.dropWhile_cons_of_neg ha]

/-! ## Identifiers and their text -/

set_option maxRecDepth 100000 in
theorem xtob_hextable (v : UInt8) :
    uuid.xtob (hex.hextable (v >>> 4)) (hex.hextable (v &&& 15)) = (v, true) := by
  cases v with
  | mk n => revert n; decide

theorem list_of_length_16 {α : Type} (l : List α) (h : l.length = 16) :
    ∃ b0 b1 b2 b3 b4 b5 b6 b7 b8 b9 b10 b11 b12 b13 b14 b15,
      l = [b0, b1, b2, b3, b4, b5, b6, b7, b8, b9, b10, b11, b12, b13, b14, b15] := by
  rcases l with _ | ⟨b0, _ | ⟨b1, _ | ⟨b2, _ | ⟨b3, _ | ⟨b4, _ | ⟨b5, _ | ⟨b6, _ | ⟨b7,
    _ | ⟨b8, _ | ⟨b9, _ | ⟨b10, _ | ⟨b11, _ | ⟨b12, _ | ⟨b13, _ | ⟨b14, _ | ⟨b15, _ | ⟨b16, l⟩⟩⟩⟩⟩⟩⟩⟩⟩⟩⟩⟩⟩⟩⟩⟩⟩ <;>
    simp at h
  exact ⟨b0, b1, b2, b3, b4, b5, b6, b7, b8, b9, b10, b11, b12, b13, b14, b15, rfl⟩

theorem Parse_String (u : uuid.UUID) : uuid.Parse u.String = (u, none) := by
  obtain ⟨l, hl⟩ := u
  obtain ⟨b0, b1, b2, b3, b4, b5, b6, b7, b8, b9, b10, b11, b12, b13, b14, b15, rfl⟩ :=
    list_of_length_16 l hl
  simp [uuid.Parse, uuid.UUID.String, uuid.encodeHex, hex.Encode, GoString.len,
    uuid.parseCanonical, uuid.parseDashed, uuid.offsets, xtob_hextable, uuid.Nil,
    uuid.ofBytes, List.replicate]

theorem Parse_err_ne_nilParameter (s : GoString) (f q : String) :
    (uuid.Parse s).2 ≠ some (GoError.nilParameter f q) := by
  have hc : ∀ t : GoString, (uuid.parseCanonical t).2 ≠ some (GoError.nilParameter f q) := by
    intro t
    simp only [uuid.parseCanonical]
    split
    · simp [errors.New]
    · split <;> simp [errors.New]
  simp only [uuid.Parse]
  split
  · exact hc s
  · split
    · split
      · simp
      · exact hc _
    · split
      · exact hc _
      · split
        · split <;> simp [errors.New]
        · simp

/-! ## `SaveList` -/

theorem trimmed_eq (p : transfer.ListCreation) :
    ListService.trimmed p =
      ⟨strings.Trim p.Name ListService.cutset, strings.Trim p.Description ListService.cutset⟩ :=
  rfl

theorem SaveList_of_set {σ : Type} (r : repository.IListRepository σ) (st : σ)
    (ownerID groupID : uuid.UUID) (p : transfer.ListCreation)
    (ho : ownerID ≠ uuid.Nil) (hg : groupID ≠ uuid.Nil) :
    ListService.SaveList r st ownerID groupID (some p) =
      if (ListService.trimmed p).Name = [] then
        ⟨uuid.Nil, some (errors.New "name cannot be an empty string"),
          some (ListService.trimmed p), [], st⟩
      else if 50 < (ListService.trimmed p).Name.len then
        ⟨uuid.Nil, some (errors.New "name too long for list: max length must be 50"),
          some (ListService.trimmed p), [], st⟩
      else
        match (r.InsertList ownerID.String groupID.String (ListService.trimmed p) st).1.2 with
        | some e => ⟨uuid.Nil, some e, some (ListService.trimmed p),
            [RepoCall.InsertList ownerID.String groupID.String (ListService.trimmed p)],
            (r.InsertList ownerID.String groupID.String (ListService.trimmed p) st).2⟩
        | none =>
          ⟨(uuid.Parse
              (r.InsertList ownerID.String groupID.String (ListService.trimmed p) st).1.1).1,
            (uuid.Parse
              (r.InsertList ownerID.String groupID.String (ListService.trimmed p) st).1.1).2,
            some (ListService.trimmed p),
            [RepoCall.InsertList ownerID.String groupID.String (ListService.trimmed p)],
            (r.InsertList ownerID.String groupID.String (ListService.trimmed p) st).2⟩ := by
  unfold ListService.SaveList
  rw [if_neg (Ne.symm ho), if_neg (Ne.symm hg)]
  rfl

/-- C1, the claim refuted: with `ownerID`, `groupID` and the payload set and
valid, a repository whose `InsertList` fails with a `NilParameterError` makes
`SaveList` return that `NilParameterError`. -/
theorem SaveList_returns_repository_nil_parameter :
    sampleOwner ≠ uuid.Nil ∧ sampleGroup ≠ uuid.Nil ∧
    ¬ (∀ f q, (ListService.SaveList nilParameterMock () sampleOwner sampleGroup
        (some samplePayload)).err ≠ some (failure.NewNilParameterError f q)) := by
  refine ⟨by decide, by decide, ?_⟩
  intro h
  exact h "SaveList" "ownerID" (by decide)

/-- C1, amended: `SaveList` answers an unset `ownerID`, `groupID` or `next`, in
that order, with `uuid.Nil` and the `NilParameterError` of operation "SaveList"
for that parameter; when all three are set it raises no `NilParameterError` of
its own: it returns one only when the repository's `InsertList` returned that
very error. -/
theorem SaveList_nil_parameter {σ : Type} (r : repository.IListRepository σ) (st : σ)
    (ownerID groupID : uuid.UUID) (next : Option transfer.ListCreation) :
    (ownerID = uuid.Nil →
      (ListService.SaveList r st ownerID groupID next).insertedID = uuid.Nil ∧
      (ListService.SaveList r st ownerID groupID next).err =
        some (failure.NewNilParameterError "SaveList" "ownerID")) ∧
    (ownerID ≠ uuid.Nil → groupID = uuid.Nil →
      (ListService.SaveList r st ownerID groupID next).insertedID = uuid.Nil ∧
      (ListService.SaveList r st ownerID groupID next).err =
        some (failure.NewNilParameterError "SaveList" "groupID")) ∧
    (ownerID ≠ uuid.Nil → groupID ≠ uuid.Nil → next = none →
      (ListService.SaveList r st ownerID groupID next).insertedID = uuid.Nil ∧
      (ListService.SaveList r st ownerID groupID next).err =
        some (failure.NewNilParameterError "SaveList" "next")) ∧
    (ownerID ≠ uuid.Nil → groupID ≠ uuid.Nil → ∀ p, next = some p → ∀ f q,
      (ListService.SaveList r st ownerID groupID next).err =
        some (failure.NewNilParameterError f q) →
      (r.InsertList ownerID.String groupID.String (ListService.trimmed p) st).1.2 =
        some (failure.NewNilParameterError f q)) := by
  refine ⟨?_, ?_, ?_, ?_⟩
  · intro ho
    simp [ListService.SaveList, ho]
  · intro ho hg
    simp [ListService.SaveList, Ne.symm ho, hg]
  · intro ho hg hn
    subst hn
    simp [ListService.SaveList, Ne.symm ho, Ne.symm hg]
  · intro ho hg p hn f q
    subst hn
    rw [SaveList_of_set r st ownerID groupID p ho hg]
    split
    · simp [errors.New, failure.NewNilParameterError]
    · split
      · simp [errors.New, failure.NewNilParameterError]
      · split
        · next e he => intro h; rw [he]; exact h
        · next he =>
          intro h
          exact absurd h (Parse_err_ne_nilParameter _ f q)

/-- C1, amended, with `ownerID` unset, and with all three set at a repository
whose `InsertList` fails with a `NilParameterError`. -/
theorem SaveList_nil_parameter_witness :
    ((ListService.SaveList nilParameterMock () uuid.Nil sampleGroup
        (some samplePayload)).insertedID = uuid.Nil ∧
      (ListService.SaveList nilParameterMock () uuid.Nil sampleGroup
        (some samplePayload)).err =
        some (failure.NewNilParameterError "SaveList" "ownerID")) ∧
    (nilParameterMock.InsertList sampleOwner.String sampleGroup.String
      (ListService.trimmed samplePayload) ()).1.2 =
      some (failure.NewNilParameterError "SaveList" "ownerID") :=
  ⟨(SaveList_nil_parameter nilParameterMock () uuid.Nil sampleGroup
      (some samplePayload)).1 rfl,
    (SaveList_nil_parameter nilParameterMock () sampleOwner sampleGroup
      (some samplePayload)).2.2.2 (by decide) (by decide) samplePayload rfl
      "SaveList" "ownerID" (by decide)⟩

/-- C2: with `ownerID` and `groupID` set and a payload whose `Name` is empty or
made only of spaces, tabs and newlines, `SaveList` returns `uuid.Nil` and the
error "name cannot be an empty string", and `InsertList` is not called. -/
theorem SaveList_blank_name {σ : Type} (r : repository.IListRepository σ) (st : σ)
    (ownerID groupID : uuid.UUID) (p : transfer.ListCreation)
    (ho : ownerID ≠ uuid.Nil) (hg : groupID ≠ uuid.Nil)
    (hname : ∀ b ∈ p.Name, b = 32 ∨ b = 9 ∨ b = 10) :
    (ListService.SaveList r st ownerID groupID (some p)).insertedID = uuid.Nil ∧
    (ListService.SaveList r st ownerID groupID (some p)).err =
      some (errors.New "name cannot be an empty string") ∧
    (ListService.SaveList r st ownerID groupID (some p)).calls = [] ∧
    (ListService.SaveList r st ownerID groupID (some p)).store = st := by
  have h : (ListService.trimmed p).Name = [] := Trim_of_blank p.Name hname
  rw [SaveList_of_set r st ownerID groupID p ho hg, if_pos h]
  exact ⟨rfl, rfl, rfl, rfl⟩

/-- C2 at the payload of the test "name cannot be empty". -/
theorem SaveList_blank_name_witness :
    sampleOwner ≠ uuid.Nil ∧ sampleGroup ≠ uuid.Nil ∧
    (ListService.SaveList (insertMock sampleID.String none) ()
      sampleOwner sampleGroup
      (some blankNamePayload)).calls = [] :=
  ⟨by decide, by decide,
    (SaveList_blank_name (insertMock sampleID.String none) ()
      sampleOwner sampleGroup blankNamePayload
      (by decide) (by decide) (by decide)).2.2.1⟩

/-- C3: with `ownerID` and `groupID` set and a payload whose trimmed `Name` is
not empty, `SaveList` fails with "name too long for list: max length must be 50"
(returning `uuid.Nil`, no call of `InsertList`) exactly when the trimmed `Name`
has more than 50 bytes; at 50 bytes `InsertList` is called, at 51 the name is
rejected. -/
theorem SaveList_name_too_long {σ : Type} (r : repository.IListRepository σ) (st : σ)
    (ownerID groupID : uuid.UUID) (p : transfer.ListCreation)
    (ho : ownerID ≠ uuid.Nil) (hg : groupID ≠ uuid.Nil)
    (hne : strings.Trim p.Name ListService.cutset ≠ []) :
    (((ListService.SaveList r st ownerID groupID (some p)).insertedID = uuid.Nil ∧
      (ListService.SaveList r st ownerID groupID (some p)).err =
        some (errors.New "name too long for list: max length must be 50") ∧
      (ListService.SaveList r st ownerID groupID (some p)).calls = []) ↔
        50 < (strings.Trim p.Name ListService.cutset).len) ∧
    ((strings.Trim p.Name ListService.cutset).len = 50 →
      (ListService.SaveList r st ownerID groupID (some p)).calls =
        [RepoCall.InsertList ownerID.String groupID.String (ListService.trimmed p)]) ∧
    ((strings.Trim p.Name ListService.cutset).len = 51 →
      (ListService.SaveList r st ownerID groupID (some p)).insertedID = uuid.Nil ∧
      (ListService.SaveList r st ownerID groupID (some p)).err =
        some (errors.New "name too long for list: max length must be 50") ∧
      (ListService.SaveList r st ownerID groupID (some p)).calls = []) := by
  have h : ¬ (ListService.trimmed p).Name = [] := hne
  have hlen : (ListService.trimmed p).Name.len = (strings.Trim p.Name ListService.cutset).len :=
    rfl
  rw [SaveList_of_set r st ownerID groupID p ho hg, if_neg h, hlen]
  refine ⟨?_, ?_, ?_⟩
  · constructor
    · intro hres
      by_contra hle
      rw [if_neg hle] at hres
      have hc := hres.2.2
      split at hc <;> simp at hc
    · intro hgt
      rw [if_pos hgt]
      exact ⟨rfl, rfl, rfl⟩
  · intro h50
    rw [if_neg (by omega)]
    split <;> rfl
  · intro h51
    rw [if_pos (by omega)]
    exact ⟨rfl, rfl, rfl⟩

/-- C3 at the payload of the test "name too long": 51 bytes are rejected. -/
theorem SaveList_name_too_long_witness :
    sampleOwner ≠ uuid.Nil ∧ sampleGroup ≠ uuid.Nil ∧
    (ListService.SaveList (insertMock sampleID.String none) ()
      sampleOwner sampleGroup
      (some longNamePayload)).err =
      some (errors.New "name too long for list: max length must be 50") :=
  ⟨by decide, by decide,
    ((SaveList_name_too_long (insertMock sampleID.String none) ()
      sampleOwner sampleGroup
      longNamePayload
      (by decide) (by decide) (by decide)).2.2 (by decide)).2.1⟩

/-- C4: with `ownerID` and `groupID` set and a payload that passes validation,
the caller's payload after `SaveList` holds `Name` and `Description` with every
leading and trailing space, tab and newline removed and the bytes in between
unchanged, and `InsertList` is called with that trimmed payload. -/
theorem SaveList_trims_payload {σ : Type} (r : repository.IListRepository σ) (st : σ)
    (ownerID groupID : uuid.UUID) (p : transfer.ListCreation)
    (ho : ownerID ≠ uuid.Nil) (hg : groupID ≠ uuid.Nil)
    (hne : strings.Trim p.Name ListService.cutset ≠ [])
    (hle : (strings.Trim p.Name ListService.cutset).len ≤ 50) :
    ∃ q : transfer.ListCreation,
      (ListService.SaveList r st ownerID groupID (some p)).next = some q ∧
      IsTrimOf p.Name q.Name ∧ IsTrimOf p.Description q.Description ∧
      (ListService.SaveList r st ownerID groupID (some p)).calls =
        [RepoCall.InsertList ownerID.String groupID.String q] := by
  have h : ¬ (ListService.trimmed p).Name = [] := hne
  have hlen : ¬ 50 < (ListService.trimmed p).Name.len := by
    show ¬ 50 < (strings.Trim p.Name ListService.cutset).len
    omega
  refine ⟨ListService.trimmed p, ?_, Trim_isTrimOf p.Name, Trim_isTrimOf p.Description, ?_⟩
  · rw [SaveList_of_set r st ownerID groupID p ho hg, if_neg h, if_neg hlen]
    split <;> rfl
  · rw [SaveList_of_set r st ownerID groupID p ho hg, if_neg h, if_neg hlen]
    split <;> rfl

/-- C4 at the payload of the tests: "list name" and "description" are left. -/
theorem SaveList_trims_payload_witness :
    sampleOwner ≠ uuid.Nil ∧ sampleGroup ≠ uuid.Nil ∧
    (ListService.SaveList (insertMock sampleID.String none) ()
      sampleOwner sampleGroup (some samplePayload)).next =
      some ⟨GoString.ofString "list name", GoString.ofString "description"⟩ ∧
    ∃ q : transfer.ListCreation,
      (ListService.SaveList (insertMock sampleID.String none) ()
        sampleOwner sampleGroup (some samplePayload)).next = some q ∧
      IsTrimOf samplePayload.Name q.Name ∧ IsTrimOf samplePayload.Description q.Description ∧
      (ListService.SaveList (insertMock sampleID.String none) ()
        sampleOwner sampleGroup (some samplePayload)).calls =
        [RepoCall.InsertList sampleOwner.String sampleGroup.String q] :=
  ⟨by decide, by decide, by decide,
    SaveList_trims_payload (insertMock sampleID.String none) ()
      sampleOwner sampleGroup samplePayload (by decide) (by decide) (by decide) (by decide)⟩

theorem SaveList_returns_parsed_id {σ : Type} (r : repository.IListRepository σ) (st : σ)
    (ownerID groupID : uuid.UUID) (p : transfer.ListCreation) (s : GoString)
    (ho : ownerID ≠ uuid.Nil) (hg : groupID ≠ uuid.Nil)
    (hne : strings.Trim p.Name ListService.cutset ≠ [])
    (hle : (strings.Trim p.Name ListService.cutset).len ≤ 50)
    (hins : (r.InsertList ownerID.String groupID.String (ListService.trimmed p) st).1 =
      (s, none)) :
    (ListService.SaveList r st ownerID groupID (some p)).insertedID = (uuid.Parse s).1 ∧
    (ListService.SaveList r st ownerID groupID (some p)).err = (uuid.Parse s).2 := by
  have h : ¬ (ListService.trimmed p).Name = [] := hne
  have hlen : ¬ 50 < (ListService.trimmed p).Name.len := by
    show ¬ 50 < (strings.Trim p.Name ListService.cutset).len
    omega
  rw [SaveList_of_set r st ownerID groupID p ho hg, if_neg h, if_neg hlen, hins]
  exact ⟨rfl, rfl⟩

theorem SaveList_returns_canonical_id {σ : Type} (r : repository.IListRepository σ) (st : σ)
    (ownerID groupID u : uuid.UUID) (p : transfer.ListCreation)
    (ho : ownerID ≠ uuid.Nil) (hg : groupID ≠ uuid.Nil)
    (hne : strings.Trim p.Name ListService.cutset ≠ [])
    (hle : (strings.Trim p.Name ListService.cutset).len ≤ 50)
    (hins : (r.InsertList ownerID.String groupID.String (ListService.trimmed p) st).1 =
      (u.String, none)) :
    (ListService.SaveList r st ownerID groupID (some p)).insertedID = u ∧
    (ListService.SaveList r st ownerID groupID (some p)).err = none := by
  have h := SaveList_returns_parsed_id r st ownerID groupID p u.String ho hg hne hle hins
  rw [Parse_String] at h
  exact h

/-- C5: what `SaveList` returns when `InsertList` yields a text and a nil error.
For the canonical text of the identifier of the tests it returns that identifier
and no error; for "x" it returns `uuid.Nil` and the error "invalid UUID length:
1"; for a 36-byte text whose last byte is not a hexadecimal digit it returns the
parsing error together with an identifier that is not `uuid.Nil`: the fifteen
bytes parsed before the bad digit. -/
theorem SaveList_parse_error_keeps_parsed_bytes :
    ((ListService.SaveList (insertMock sampleID.String none) () sampleOwner sampleGroup
        (some samplePayload)).insertedID = sampleID ∧
      (ListService.SaveList (insertMock sampleID.String none) () sampleOwner sampleGroup
        (some samplePayload)).err = none) ∧
    ((ListService.SaveList (insertMock (GoString.ofString "x") none) () sampleOwner
        sampleGroup (some samplePayload)).insertedID = uuid.Nil ∧
      (ListService.SaveList (insertMock (GoString.ofString "x") none) () sampleOwner
        sampleGroup (some samplePayload)).err = some (GoError.invalidLength 1)) ∧
    ((ListService.SaveList (insertMock malformedID none) () sampleOwner sampleGroup
        (some samplePayload)).err = some (errors.New "invalid UUID format") ∧
      (ListService.SaveList (insertMock malformedID none) () sampleOwner sampleGroup
        (some samplePayload)).insertedID ≠ uuid.Nil ∧
      (ListService.SaveList (insertMock malformedID none) () sampleOwner sampleGroup
        (some samplePayload)).insertedID.bytes =
        [0x4f, 0xed, 0xb4, 0x1f, 0x5e, 0x44, 0x4e, 0x63, 0x92, 0x66, 0x4b, 0x09, 0x4b, 0xd7,
          0xba, 0]) := by
  refine ⟨⟨?_, ?_⟩, ⟨?_, ?_⟩, ?_, ?_, ?_⟩ <;> decide

/-- C6: when validation passes and `InsertList` returns an error `e`, `SaveList`
returns `uuid.Nil` and `e` itself, whatever text came with it, so that
`errors.Is(err, e)` holds. -/
theorem SaveList_repository_error {σ : Type} (r : repository.IListRepository σ) (st : σ)
    (ownerID groupID : uuid.UUID) (p : transfer.ListCreation) (e : GoError)
    (ho : ownerID ≠ uuid.Nil) (hg : groupID ≠ uuid.Nil)
    (hne : strings.Trim p.Name ListService.cutset ≠ [])
    (hle : (strings.Trim p.Name ListService.cutset).len ≤ 50)
    (hins : (r.InsertList ownerID.String groupID.String (ListService.trimmed p) st).1.2 =
      some e) :
    (ListService.SaveList r st ownerID groupID (some p)).insertedID = uuid.Nil ∧
    (ListService.SaveList r st ownerID groupID (some p)).err = some e ∧
    errors.Is (ListService.SaveList r st ownerID groupID (some p)).err (some e) = true := by
  have h : ¬ (ListService.trimmed p).Name = [] := hne
  have hlen : ¬ 50 < (ListService.trimmed p).Name.len := by
    show ¬ 50 < (strings.Trim p.Name ListService.cutset).len
    omega
  rw [SaveList_of_set r st ownerID groupID p ho hg, if_neg h, if_neg hlen, hins]
  simp [errors.Is]

/-- C6 at the repository of the test "got a repository error". -/
theorem SaveList_repository_error_witness :
    sampleOwner ≠ uuid.Nil ∧ sampleGroup ≠ uuid.Nil ∧
    (ListService.SaveList (insertMock sampleID.String (some (errors.New "unexpected error")))
      () sampleOwner sampleGroup (some samplePayload)).insertedID = uuid.Nil ∧
    (ListService.SaveList (insertMock sampleID.String (some (errors.New "unexpected error")))
      () sampleOwner sampleGroup (some samplePayload)).err =
      some (errors.New "unexpected error") ∧
    errors.Is (ListService.SaveList
      (insertMock sampleID.String (some (errors.New "unexpected error")))
      () sampleOwner sampleGroup (some samplePayload)).err
      (some (errors.New "unexpected error")) = true :=
  ⟨by decide, by decide,
    SaveList_repository_error (insertMock sampleID.String (some (errors.New "unexpected error")))
      () sampleOwner sampleGroup samplePayload (errors.New "unexpected error")
      (by decide) (by decide) (by decide) (by decide) rfl⟩

/-- C7: `SaveList` calls `InsertList` exactly once, with `ownerID.String()`,
`groupID.String()` and the trimmed payload, when `ownerID` and `groupID` are
set, the payload is not nil and its trimmed `Name` is not empty and at most 50
bytes long; in every other case it returns an error, makes no call and leaves
the store as it was. -/
theorem SaveList_calls_InsertList {σ : Type} (r : repository.IListRepository σ) (st : σ)
    (ownerID groupID : uuid.UUID) (next : Option transfer.ListCreation) :
    (∀ p, next = some p → ownerID ≠ uuid.Nil → groupID ≠ uuid.Nil →
      strings.Trim p.Name ListService.cutset ≠ [] →
      (strings.Trim p.Name ListService.cutset).len ≤ 50 →
      (ListService.SaveList r st ownerID groupID next).calls =
        [RepoCall.InsertList ownerID.String groupID.String (ListService.trimmed p)]) ∧
    ((¬ ∃ p, next = some p ∧ ownerID ≠ uuid.Nil ∧ groupID ≠ uuid.Nil ∧
        strings.Trim p.Name ListService.cutset ≠ [] ∧
        (strings.Trim p.Name ListService.cutset).len ≤ 50) →
      (ListService.SaveList r st ownerID groupID next).calls = [] ∧
      (ListService.SaveList r st ownerID groupID next).store = st ∧
      (ListService.SaveList r st ownerID groupID next).insertedID = uuid.Nil ∧
      (ListService.SaveList r st ownerID groupID next).err ≠ none) := by
  constructor
  · intro p hn ho hg hne hle
    subst hn
    have h : ¬ (ListService.trimmed p).Name = [] := hne
    have hlen : ¬ 50 < (ListService.trimmed p).Name.len := by
      show ¬ 50 < (strings.Trim p.Name ListService.cutset).len
      omega
    rw [SaveList_of_set r st ownerID groupID p ho hg, if_neg h, if_neg hlen]
    split <;> rfl
  · intro hno
    by_cases ho : ownerID = uuid.Nil
    · simp [ListService.SaveList, ho]
    by_cases hg : groupID = uuid.Nil
    · simp [ListService.SaveList, Ne.symm ho, hg]
    cases next with
    | none => simp [ListService.SaveList, Ne.symm ho, Ne.symm hg]
    | some p =>
      rw [SaveList_of_set r st ownerID groupID p ho hg]
      by_cases h : (ListService.trimmed p).Name = []
      · rw [if_pos h]; simp
      · rw [if_neg h]
        by_cases hlen : 50 < (ListService.trimmed p).Name.len
        · rw [if_pos hlen]; simp
        · exfalso
          apply hno
          refine ⟨p, rfl, ho, hg, h, ?_⟩
          show (ListService.trimmed p).Name.len ≤ 50
          omega

/-- C8: `FindListByID` answers the first of `ownerID`, `groupID`, `listID` that
is `uuid.Nil` with a nil list and the `NilParameterError` of operation
"FindListByID" for it, without calling the repository; with all three set it
returns the list and the error of `FetchListByID(ownerID.String(),
groupID.String(), listID.String())` as they are. -/
theorem FindListByID_contract {σ : Type} (r : repository.IListRepository σ) (st : σ)
    (ownerID groupID listID : uuid.UUID) :
    (ownerID = uuid.Nil →
      (ListService.FindListByID r st ownerID groupID listID).list = none ∧
      (ListService.FindListByID r st ownerID groupID listID).err =
        some (failure.NewNilParameterError "FindListByID" "ownerID") ∧
      (ListService.FindListByID r st ownerID groupID listID).calls = []) ∧
    (ownerID ≠ uuid.Nil → groupID = uuid.Nil →
      (ListService.FindListByID r st ownerID groupID listID).list = none ∧
      (ListService.FindListByID r st ownerID groupID listID).err =
        some (failure.NewNilParameterError "FindListByID" "groupID") ∧
      (ListService.FindListByID r st ownerID groupID listID).calls = []) ∧
    (ownerID ≠ uuid.Nil → groupID ≠ uuid.Nil → listID = uuid.Nil →
      (ListService.FindListByID r st ownerID groupID listID).list = none ∧
      (ListService.FindListByID r st ownerID groupID listID).err =
        some (failure.NewNilParameterError "FindListByID" "listID") ∧
      (ListService.FindListByID r st ownerID groupID listID).calls = []) ∧
    (ownerID ≠ uuid.Nil → groupID ≠ uuid.Nil → listID ≠ uuid.Nil →
      (ListService.FindListByID r st ownerID groupID listID).list =
        (r.FetchListByID ownerID.String groupID.String listID.String st).1.1 ∧
      (ListService.FindListByID r st ownerID groupID listID).err =
        (r.FetchListByID ownerID.String groupID.String listID.String st).1.2 ∧
      (ListService.FindListByID r st ownerID groupID listID).calls =
        [RepoCall.FetchListByID ownerID.String groupID.String listID.String]) := by
  refine ⟨?_, ?_, ?_, ?_⟩
  · intro ho
    simp [ListService.FindListByID, ho]
  · intro ho hg
    simp [ListService.FindListByID, Ne.symm ho, hg]
  · intro ho hg hl
    simp [ListService.FindListByID, Ne.symm ho, Ne.symm hg, hl]
  · intro ho hg hl
    simp [ListService.FindListByID, Ne.symm ho, Ne.symm hg, Ne.symm hl]

/-! ## The page clamp of `SelectAll` -/

theorem wrapInt64_of_isInt64 (x : Int) (h : isInt64 x) : wrapInt64 x = x := by
  unfold isInt64 math.MinInt64 math.MaxInt64 at h
  unfold wrapInt64 math.MinInt64
  omega

theorem maxValidBeforeOverflow_eq (limit : Int) (h1 : 1 ≤ limit)
    (h2 : limit ≤ math.MaxInt64) :
    UserRepository.maxValidBeforeOverflow limit = some (math.MaxInt64 / limit - 1) ∧
    1 ≤ math.MaxInt64 / limit ∧ math.MaxInt64 / limit ≤ math.MaxInt64 ∧
    limit * (math.MaxInt64 / limit) ≤ math.MaxInt64 ∧
    math.MaxInt64 < limit * (math.MaxInt64 / limit + 1) := by
  have hpos : (0 : Int) < limit := by omega
  have hM : (0 : Int) ≤ math.MaxInt64 := by unfold math.MaxInt64; omega
  have hq1 : 1 ≤ math.MaxInt64 / limit := by
    rw [Int.le_ediv_iff_mul_le hpos]; omega
  have hq2 : math.MaxInt64 / limit ≤ math.MaxInt64 := by
    apply Int.ediv_le_self _ hM
  have hq3 : limit * (math.MaxInt64 / limit) ≤ math.MaxInt64 :=
    Int.mul_ediv_self_le (by omega)
  have hq4 : math.MaxInt64 < limit * (math.MaxInt64 / limit + 1) := by
    have := Int.lt_mul_ediv_self_add (x := math.MaxInt64) hpos
    linarith
  refine ⟨?_, hq1, hq2, hq3, hq4⟩
  have hne : limit ≠ 0 := by omega
  have htd : Int.tdiv math.MaxInt64 limit = math.MaxInt64 / limit :=
    Int.tdiv_eq_ediv hM (by omega)
  unfold UserRepository.maxValidBeforeOverflow int64.div int64.sub
  rw [if_neg hne, htd]
  have hr1 : isInt64 (math.MaxInt64 / limit) := by
    unfold isInt64 math.MinInt64
    constructor
    · omega
    · exact hq2
  rw [wrapInt64_of_isInt64 _ hr1]
  have hr2 : isInt64 (math.MaxInt64 / limit - 1) := by
    unfold isInt64 math.MinInt64
    constructor
    · omega
    · omega
  simp [wrapInt64_of_isInt64 _ hr2]

/-- C9: for `limit ≥ 1` and `page ≥ 1` of type `int64`, `SelectAll` does not
panic and sends one query with `limit` and a page whose offset `limit * (page -
1)` is inside the range of `int64`; the page sent is the smaller of `page` and
`MaxInt64 / limit - 1`, hence `page` itself when `page` is at most that bound. -/
theorem SelectAll_offset_in_range {ρ : Type} (db : sql.DB ρ) (limit page : Int)
    (hl : isInt64 limit) (_hp : isInt64 page) (hl1 : 1 ≤ limit) (hp1 : 1 ≤ page) :
    ∃ out sent, UserRepository.SelectAll db limit page = some out ∧
      out.sent = [(limit, sent)] ∧
      sent = min page (math.MaxInt64 / limit - 1) ∧
      UserRepository.offset limit sent ≤ math.MaxInt64 ∧
      isInt64 (UserRepository.offset limit sent) ∧
      (page ≤ math.MaxInt64 / limit - 1 → sent = page) := by
  obtain ⟨hmv, hq1, hq2, hq3, hq4⟩ := maxValidBeforeOverflow_eq limit hl1 hl.2
  have hsent : (if page > math.MaxInt64 / limit - 1 then math.MaxInt64 / limit - 1 else page) =
      min page (math.MaxInt64 / limit - 1) := by
    split
    · rw [min_eq_right (by omega)]
    · rw [min_eq_left (by omega)]
  have hoff : isInt64 (UserRepository.offset limit (min page (math.MaxInt64 / limit - 1))) := by
    have hle : min page (math.MaxInt64 / limit - 1) ≤ math.MaxInt64 / limit - 1 :=
      min_le_right _ _
    have hge : 0 ≤ min page (math.MaxInt64 / limit - 1) := le_min (by omega) (by omega)
    have hMin : math.MinInt64 = -math.MaxInt64 - 1 := by decide
    unfold isInt64 UserRepository.offset
    constructor
    · have : -limit ≤ limit * (min page (math.MaxInt64 / limit - 1) - 1) := by nlinarith
      have := hl.2
      omega
    · have : limit * (min page (math.MaxInt64 / limit - 1) - 1) ≤
          limit * (math.MaxInt64 / limit) := by nlinarith
      omega
  have hsame : page ≤ math.MaxInt64 / limit - 1 →
      min page (math.MaxInt64 / limit - 1) = page := fun h => min_eq_left h
  unfold UserRepository.SelectAll
  rw [hmv]
  simp only [hsent]
  cases hq : db.QueryAll limit (min page (math.MaxInt64 / limit - 1)) with
  | error e => exact ⟨_, _, rfl, rfl, rfl, hoff.2, hoff, hsame⟩
  | ok users => exact ⟨_, _, rfl, rfl, rfl, hoff.2, hoff, hsame⟩

/-- C9 at `limit = 10` and the largest page, which is clamped. -/
theorem SelectAll_offset_in_range_witness :
    isInt64 10 ∧ isInt64 9223372036854775807 ∧
    ∃ out sent, UserRepository.SelectAll (ρ := Unit) ⟨fun _ _ => Except.ok []⟩ 10
        9223372036854775807 = some out ∧
      out.sent = [(10, sent)] ∧
      sent = min 9223372036854775807 (math.MaxInt64 / 10 - 1) ∧
      UserRepository.offset 10 sent ≤ math.MaxInt64 ∧
      isInt64 (UserRepository.offset 10 sent) ∧
      ((9223372036854775807 : Int) ≤ math.MaxInt64 / 10 - 1 → sent = 9223372036854775807) :=
  ⟨by decide, by decide,
    SelectAll_offset_in_range ⟨fun _ _ => Except.ok []⟩ 10 9223372036854775807
      (by decide) (by decide) (by decide) (by decide)⟩

/-- C10, the claim refuted: at `limit = 1` the bound is `MaxInt64 - 1`, and the
offset of the next page, `1 * ((maxPage + 1) - 1)`, still fits in `int64`. -/
theorem maxValidBeforeOverflow_not_largest :
    ¬ (∀ maxPage, UserRepository.maxValidBeforeOverflow 1 = some maxPage →
        isInt64 (UserRepository.offset 1 maxPage) ∧
        ¬ isInt64 (UserRepository.offset 1 (maxPage + 1))) := by
  intro h
  have hmv : UserRepository.maxValidBeforeOverflow 1 = some 9223372036854775806 := by decide
  exact (h _ hmv).2 (by decide)

/-- C10, amended: for every `limit ≥ 1` the bound `maxPage = MaxInt64 / limit -
1` is a page whose offset `limit * (maxPage - 1)` fits in `int64`, and it is
not the largest such page: `maxPage + 1` is a page of type `int64` too, and its
offset `limit * ((maxPage + 1) - 1)` fits as well. -/
theorem maxValidBeforeOverflow_safe (limit : Int) (hl : isInt64 limit) (hl1 : 1 ≤ limit) :
    ∃ maxPage, UserRepository.maxValidBeforeOverflow limit = some maxPage ∧
      maxPage = math.MaxInt64 / limit - 1 ∧
      isInt64 maxPage ∧
      isInt64 (UserRepository.offset limit maxPage) ∧
      isInt64 (maxPage + 1) ∧
      isInt64 (UserRepository.offset limit (maxPage + 1)) := by
  obtain ⟨hmv, hq1, hq2, hq3, hq4⟩ := maxValidBeforeOverflow_eq limit hl1 hl.2
  have hMin : math.MinInt64 = -math.MaxInt64 - 1 := by decide
  have hl2 := hl.2
  refine ⟨_, hmv, rfl, ?_, ?_, ?_, ?_⟩
  · unfold isInt64
    constructor <;> omega
  · unfold isInt64 UserRepository.offset
    constructor
    · have : -limit ≤ limit * (math.MaxInt64 / limit - 1 - 1) := by nlinarith
      omega
    · have : limit * (math.MaxInt64 / limit - 1 - 1) ≤ limit * (math.MaxInt64 / limit) := by
        nlinarith
      omega
  · unfold isInt64
    constructor <;> omega
  · unfold isInt64 UserRepository.offset
    constructor
    · have : 0 ≤ limit * (math.MaxInt64 / limit - 1 + 1 - 1) := by nlinarith
      omega
    · have : limit * (math.MaxInt64 / limit - 1 + 1 - 1) ≤ limit * (math.MaxInt64 / limit) := by
        nlinarith
      omega

/-- C10, amended, at `limit = 10`. -/
theorem maxValidBeforeOverflow_safe_witness :
    isInt64 10 ∧
    ∃ maxPage, UserRepository.maxValidBeforeOverflow 10 = some maxPage ∧
      maxPage = math.MaxInt64 / 10 - 1 ∧
      isInt64 maxPage ∧
      isInt64 (UserRepository.offset 10 maxPage) ∧
      isInt64 (maxPage + 1) ∧
      isInt64 (UserRepository.offset 10 (maxPage + 1)) :=
  ⟨by decide, maxValidBeforeOverflow_safe 10 (by decide) (by decide)⟩

/-! ## `UserRepository.Insert` and `UserRepository.Update` -/

theorem selectIDByEmail_length_pos (db : UserStore) (email : GoString)
    (h : ∃ row ∈ db.rows, db.lower row.email = db.lower email) :
    1 ≤ (db.selectIDByEmail email).length := by
  obtain ⟨row, hrow, heq⟩ := h
  have hmem : row.user_id ∈ db.selectIDByEmail email := by
    unfold UserStore.selectIDByEmail
    exact List.mem_map.2 ⟨row, List.mem_filter.2 ⟨hrow, by simpa using heq⟩, rfl⟩
  exact List.length_pos_of_mem hmem

/-- C11: `Insert` returns `(nil, ErrSameEmail)` and executes no INSERT when the
existence check is answered and the store holds a user whose email equals the
new one under `lower`; when the existence check fails, at `Exec` or at
`RowsAffected`, `Insert` returns `(nil, that error)` and executes no INSERT. In
each case the rows of the store are as before. -/
theorem Insert_same_email (db : UserStore) (next : transfer.UserCreation) :
    (db.fault (SqlStmt.selectIDByEmail next.Email) = none →
      db.rowsAffectedFault (SqlStmt.selectIDByEmail next.Email) = none →
      (∃ row ∈ db.rows, db.lower row.email = db.lower next.Email) →
      ∃ out, UserRepository.Insert db (some next) = GoResult.returns out ∧
        out.value = none ∧ out.err = some failure.ErrSameEmail ∧
        out.executed = [SqlStmt.selectIDByEmail next.Email] ∧ out.db.rows = db.rows) ∧
    (∀ e, db.fault (SqlStmt.selectIDByEmail next.Email) = some e →
      ∃ out, UserRepository.Insert db (some next) = GoResult.returns out ∧
        out.value = none ∧ out.err = some e ∧
        out.executed = [] ∧ out.db.rows = db.rows) ∧
    (∀ e, db.fault (SqlStmt.selectIDByEmail next.Email) = none →
      db.rowsAffectedFault (SqlStmt.selectIDByEmail next.Email) = some e →
      ∃ out, UserRepository.Insert db (some next) = GoResult.returns out ∧
        out.value = none ∧ out.err = some e ∧
        out.executed = [SqlStmt.selectIDByEmail next.Email] ∧ out.db.rows = db.rows) := by
  refine ⟨?_, ?_, ?_⟩
  · intro hf hr hex
    have hlen := selectIDByEmail_length_pos db next.Email hex
    simp [UserRepository.Insert, UserRepository.ExistsUserWithEmail, hf, hr, hlen]
  · intro e hf
    simp [UserRepository.Insert, UserRepository.ExistsUserWithEmail, hf]
  · intro e hf hr
    simp [UserRepository.Insert, UserRepository.ExistsUserWithEmail, hf, hr]

/-- C11 at a store that holds `Ada@Example.com`, for the new email
`ada@example.COM`. -/
theorem Insert_same_email_witness :
    ∃ out, UserRepository.Insert sampleUserStore (some sampleUserCreation) =
        GoResult.returns out ∧
      out.value = none ∧ out.err = some failure.ErrSameEmail ∧
      out.executed = [SqlStmt.selectIDByEmail sampleUserCreation.Email] ∧
      out.db.rows = sampleUserStore.rows :=
  (Insert_same_email sampleUserStore sampleUserCreation).1 rfl rfl
    ⟨sampleUserRow, by simp [sampleUserStore], by decide⟩

theorem selectByID_eq_nil (db : UserStore) (id : GoString)
    (h : ∀ row ∈ db.rows, row.user_id ≠ id) : db.selectByID id = [] := by
  unfold UserStore.selectByID
  rw [List.filter_eq_nil_iff]
  intro row hrow
  simpa using h row hrow

/-- C12: for a user ID with no stored user `Update` returns `false` with a
non-nil error, which is `ErrNotFound` whenever the SELECT is answered, and it
executes no UPDATE; for a stored user whose four names equal the four fields of
the update, it returns `(false, nil)` and executes no UPDATE. -/
theorem Update_not_found_or_same (db : UserStore) (userID : GoString)
    (up : transfer.UserUpdate) :
    ((∀ row ∈ db.rows, row.user_id ≠ userID) →
      ∃ out, UserRepository.Update db userID (some up) = GoResult.returns out ∧
        out.value = false ∧ out.err ≠ none ∧
        (db.fault (SqlStmt.selectByID userID) = none → out.err = some failure.ErrNotFound) ∧
        SqlStmt.updateUser userID up ∉ out.executed ∧ out.db.rows = db.rows) ∧
    (∀ row, db.fault (SqlStmt.selectByID userID) = none → db.selectByID userID = [row] →
      row.first_name = up.FirstName → row.middle_name = up.MiddleName →
      row.last_name = up.LastName → row.surname = up.Surname →
      ∃ out, UserRepository.Update db userID (some up) = GoResult.returns out ∧
        out.value = false ∧ out.err = none ∧
        out.executed = [SqlStmt.selectByID userID] ∧ out.db.rows = db.rows) := by
  constructor
  · intro hno
    have hsel := selectByID_eq_nil db userID hno
    cases hf : db.fault (SqlStmt.selectByID userID) with
    | some e => simp [UserRepository.Update, UserRepository.SelectByID, hf]
    | none => simp [UserRepository.Update, UserRepository.SelectByID, hf, hsel]
  · intro row hf hsel h1 h2 h3 h4
    simp [UserRepository.Update, UserRepository.SelectByID, hf, hsel, UserRow.toUser,
      h1, h2, h3, h4]

/-- C12 at a store with one user: an unknown ID is not found, and repeating the
stored names changes nothing. -/
theorem Update_not_found_or_same_witness :
    (∃ out, UserRepository.Update sampleUserStore sampleOwner.String (some sampleUserUpdate) =
        GoResult.returns out ∧ out.value = false ∧ out.err = some failure.ErrNotFound) ∧
    (∃ out, UserRepository.Update sampleUserStore sampleID.String (some sampleUserUpdate) =
        GoResult.returns out ∧ out.value = false ∧ out.err = none ∧
        out.executed = [SqlStmt.selectByID sampleID.String] ∧
        out.db.rows = sampleUserStore.rows) := by
  constructor
  · obtain ⟨out, h1, h2, _, h4, _⟩ :=
      (Update_not_found_or_same sampleUserStore sampleOwner.String sampleUserUpdate).1
        (by decide)
    exact ⟨out, h1, h2, h4 rfl⟩
  · exact (Update_not_found_or_same sampleUserStore sampleID.String sampleUserUpdate).2
      sampleUserRow rfl (by decide) (by decide) (by decide) (by decide) (by decide)

/-! ## Trimming with any cutset -/

theorem Trim_eq (s cutset : GoString) :
    strings.Trim s cutset =
      (s.rdropWhile (strings.contains cutset)).dropWhile (strings.contains cutset) := by
  unfold strings.Trim
  by_cases hs : s = []
  · subst hs; simp [List.rdropWhile]
  · by_cases hc : cutset = []
    · subst hc
      have hfalse : strings.contains [] = fun _ => false := by
        funext b; simp [strings.contains]
      have hdrop : ∀ l : GoString, l.dropWhile (fun _ => false) = l := by
        intro l; cases l <;> simp
      rw [if_pos (Or.inr rfl), hfalse]
      simp only [List.rdropWhile, hdrop, List.reverse_reverse]
    · simp [hs, hc, strings.trimLeftASCII, strings.trimRightASCII, List.rdropWhile]

theorem Trim_head_not_mem (s cutset : GoString) (b : UInt8)
    (hb : (strings.Trim s cutset).head? = some b) : strings.contains cutset b = false := by
  rw [Trim_eq] at hb
  generalize strings.contains cutset = p at hb ⊢
  have hne : (s.rdropWhile p).dropWhile p ≠ [] := by
    intro h; rw [h] at hb; simp at hb
  have h1 := List.head_dropWhile_not p (s.rdropWhile p) hne
  rw [List.head?_eq_head hne] at hb
  injection hb with hb
  rw [hb] at h1
  exact h1

theorem Trim_getLast_not_mem (s cutset : GoString) (b : UInt8)
    (hb : (strings.Trim s cutset).getLast? = some b) : strings.contains cutset b = false := by
  rw [Trim_eq] at hb
  generalize strings.contains cutset = p at hb ⊢
  have hne : (s.rdropWhile p).dropWhile p ≠ [] := by
    intro h; rw [h] at hb; simp at hb
  have hne2 : s.rdropWhile p ≠ [] := by
    intro h; rw [h] at hne; simp at hne
  have hsuf := List.dropWhile_suffix (l := s.rdropWhile p) p
  have h1 := hsuf.getLast hne
  have h2 := List.rdropWhile_last_not p s hne2
  rw [List.getLast?_eq_getLast _ hne] at hb
  injection hb with hb
  rw [h1] at hb
  rw [hb] at h2
  simpa using h2

theorem Trim_idempotent (s cutset : GoString) :
    strings.Trim (strings.Trim s cutset) cutset = strings.Trim s cutset := by
  have hlast := Trim_getLast_not_mem s cutset
  have hhead := Trim_head_not_mem s cutset
  rw [Trim_eq (strings.Trim s cutset) cutset]
  generalize strings.Trim s cutset = t at hlast hhead ⊢
  have h1 : t.rdropWhile (strings.contains cutset) = t := by
    rw [List.rdropWhile_eq_self_iff]
    intro hl hp
    have := hlast (t.getLast hl) (List.getLast?_eq_getLast _ hl)
    rw [this] at hp
    exact absurd hp (by simp)
  rw [h1]
  cases t with
  | nil => rfl
  | cons a r =>
    have ha := hhead a rfl
    rw [List.dropWhile_cons_of_neg (by simp [ha])]

theorem Trim_cons_of_not_mem (b : UInt8) (rest cutset : GoString)
    (hb : strings.contains cutset b = false) :
    (strings.Trim (b :: rest) cutset).head? = some b := by
  rw [Trim_eq]
  generalize strings.contains cutset = p at hb ⊢
  have h : (b :: rest).rdropWhile p = b :: rest.rdropWhile p := by
    simp only [List.rdropWhile, List.reverse_cons, List.dropWhile_append]
    split
    · next hemp =>
      have : List.dropWhile p rest.reverse = [] := by simpa using hemp
      simp [this, hb]
    · simp
  rw [h, List.dropWhile_cons_of_neg (by simp [hb])]
  rfl

theorem Trim_concat_of_not_mem (b : UInt8) (init cutset : GoString)
    (hb : strings.contains cutset b = false) :
    (strings.Trim (init ++ [b]) cutset).getLast? = some b := by
  rw [Trim_eq]
  generalize strings.contains cutset = p at hb ⊢
  rw [List.rdropWhile_concat_neg _ _ _ (by simp [hb]), List.dropWhile_append]
  split
  · simp [hb]
  · simp

/-! ## The task service -/

theorem contains_whitespace (b : UInt8) :
    strings.contains validation.whitespace b = true ↔ isWhitespace b := by
  simp [strings.contains, validation.whitespace, isWhitespace]

theorem trim_idempotent (s : GoString) :
    validation.trim (validation.trim s) = validation.trim s :=
  Trim_idempotent s validation.whitespace

theorem trim_isTrimmed (s : GoString) : IsTrimmed (validation.trim s) := by
  constructor
  · intro b hb hw
    have h := Trim_head_not_mem s validation.whitespace b hb
    rw [(contains_whitespace b).2 hw] at h
    exact absurd h (by simp)
  · intro b hb hw
    have h := Trim_getLast_not_mem s validation.whitespace b hb
    rw [(contains_whitespace b).2 hw] at h
    exact absurd h (by simp)

theorem boundedLength_trim (field owner : String) (s : GoString) (max : Nat) :
    validation.boundedLength field owner (validation.trim s) max =
      if max < characterCount (validation.trim s) then some (GoError.tooLong field owner max)
      else none := by
  unfold validation.boundedLength
  rw [trim_idempotent]

theorem TaskService_Save_of_set {σ : Type} (r : repository.TaskRepository σ) (st : σ)
    (ownerID listID : uuid.UUID) (c : transfer.TaskCreation)
    (ho : ownerID ≠ uuid.Nil) (hl : listID ≠ uuid.Nil) :
    TaskService.Save r st ownerID listID (some c) =
      if 128 < characterCount (validation.trim c.Title) then
        ⟨uuid.Nil, some (GoError.tooLong "Title" "creation" 128),
          some (TaskService.trimmed c), [], st⟩
      else if 64 < characterCount (validation.trim c.Headline) then
        ⟨uuid.Nil, some (GoError.tooLong "Headline" "creation" 64),
          some (TaskService.trimmed c), [], st⟩
      else if 512 < characterCount (validation.trim c.Description) then
        ⟨uuid.Nil, some (GoError.tooLong "Description" "creation" 512),
          some (TaskService.trimmed c), [], st⟩
      else
        match (r.Save ownerID.String listID.String
            (TaskService.defaulted (TaskService.trimmed c)) st).1.2 with
        | some e => ⟨uuid.Nil, some e, some (TaskService.defaulted (TaskService.trimmed c)),
            [ServiceCall.TaskSave ownerID.String listID.String
              (TaskService.defaulted (TaskService.trimmed c))],
            (r.Save ownerID.String listID.String
              (TaskService.defaulted (TaskService.trimmed c)) st).2⟩
        | none =>
          ⟨(uuid.Parse (r.Save ownerID.String listID.String
              (TaskService.defaulted (TaskService.trimmed c)) st).1.1).1,
            (uuid.Parse (r.Save ownerID.String listID.String
              (TaskService.defaulted (TaskService.trimmed c)) st).1.1).2,
            some (TaskService.defaulted (TaskService.trimmed c)),
            [ServiceCall.TaskSave ownerID.String listID.String
              (TaskService.defaulted (TaskService.trimmed c))],
            (r.Save ownerID.String listID.String
              (TaskService.defaulted (TaskService.trimmed c)) st).2⟩ := by
  unfold TaskService.Save
  rw [if_neg (Ne.symm ho), if_neg (Ne.symm hl)]
  simp only [boundedLength_trim]
  by_cases h1 : 128 < characterCount (validation.trim c.Title)
  · simp only [if_pos h1]; rfl
  · simp only [if_neg h1]
    by_cases h2 : 64 < characterCount (validation.trim c.Headline)
    · simp only [if_pos h2]; rfl
    · simp only [if_neg h2]
      by_cases h3 : 512 < characterCount (validation.trim c.Description)
      · simp only [if_pos h3]; rfl
      · simp only [if_neg h3]
        rfl

theorem defaulted_Title (d : transfer.TaskCreation) :
    (TaskService.defaulted d).Title =
      validation.defaultIfEmpty d.Title (GoString.ofString "Untitled") := by
  unfold TaskService.defaulted
  simp only
  split <;> split <;> rfl

theorem defaulted_Headline (d : transfer.TaskCreation) :
    (TaskService.defaulted d).Headline = d.Headline := by
  unfold TaskService.defaulted
  simp only
  split <;> split <;> rfl

theorem defaulted_Description (d : transfer.TaskCreation) :
    (TaskService.defaulted d).Description = d.Description := by
  unfold TaskService.defaulted
  simp only
  split <;> split <;> rfl

theorem defaulted_Priority (d : transfer.TaskCreation) :
    (TaskService.defaulted d).Priority =
      if d.Priority = types.TaskPriority.unset then types.TaskPriority.medium
      else d.Priority := by
  unfold TaskService.defaulted
  simp only
  split <;> split <;> simp_all

theorem defaulted_Status (d : transfer.TaskCreation) :
    (TaskService.defaulted d).Status =
      if d.Status = types.TaskStatus.unset then types.TaskStatus.incomplete
      else d.Status := by
  unfold TaskService.defaulted
  simp only
  split <;> split <;> simp_all

theorem untitled_isTrimmed : IsTrimmed (GoString.ofString "Untitled") := by
  have h : GoString.ofString "Untitled" = [85, 110, 116, 105, 116, 108, 101, 100] := by decide
  rw [h]
  constructor
  · intro b hb
    have hb85 : b = 85 := by simpa using hb.symm
    subst hb85; decide
  · intro b hb
    have hb100 : b = 100 := by simpa using hb.symm
    subst hb100; decide

/-- C13: after a successful `TaskService.Save` the caller's payload holds the
title "Untitled" when the title was empty after trimming and the trimmed title
otherwise, the trimmed headline and description, priority medium in place of an
unset priority and status incomplete in place of an unset status; none of the
three texts begins or ends with a whitespace byte. -/
theorem TaskService_Save_defaults {σ : Type} (r : repository.TaskRepository σ) (st : σ)
    (ownerID listID : uuid.UUID) (c : transfer.TaskCreation)
    (ho : ownerID ≠ uuid.Nil) (hl : listID ≠ uuid.Nil)
    (hok : (TaskService.Save r st ownerID listID (some c)).err = none) :
    ∃ d, (TaskService.Save r st ownerID listID (some c)).creation = some d ∧
      (validation.trim c.Title = [] → d.Title = GoString.ofString "Untitled") ∧
      (validation.trim c.Title ≠ [] → d.Title = validation.trim c.Title) ∧
      d.Headline = validation.trim c.Headline ∧
      d.Description = validation.trim c.Description ∧
      (c.Priority = types.TaskPriority.unset → d.Priority = types.TaskPriority.medium) ∧
      (c.Priority ≠ types.TaskPriority.unset → d.Priority = c.Priority) ∧
      (c.Status = types.TaskStatus.unset → d.Status = types.TaskStatus.incomplete) ∧
      (c.Status ≠ types.TaskStatus.unset → d.Status = c.Status) ∧
      IsTrimmed d.Title ∧ IsTrimmed d.Headline ∧ IsTrimmed d.Description := by
  rw [TaskService_Save_of_set r st ownerID listID c ho hl] at hok ⊢
  have hcre : ∀ e, ¬ (some (e : GoError) = none) := fun e h => by cases h
  split at hok
  · exact absurd hok (hcre _)
  split at hok
  · exact absurd hok (hcre _)
  split at hok
  · exact absurd hok (hcre _)
  rename_i h1 h2 h3
  rw [if_neg h1, if_neg h2, if_neg h3]
  have htitle : (TaskService.defaulted (TaskService.trimmed c)).Title =
      if validation.trim c.Title = [] then GoString.ofString "Untitled"
      else validation.trim c.Title := by
    rw [defaulted_Title]
    show validation.defaultIfEmpty (validation.trim c.Title) _ = _
    unfold validation.defaultIfEmpty
    rw [trim_idempotent]
  refine ⟨TaskService.defaulted (TaskService.trimmed c), ?_, ?_, ?_, ?_, ?_, ?_, ?_, ?_, ?_,
    ?_, ?_, ?_⟩
  · split <;> rfl
  · intro h; rw [htitle, if_pos h]
  · intro h; rw [htitle, if_neg h]
  · rw [defaulted_Headline]; rfl
  · rw [defaulted_Description]; rfl
  · intro h
    rw [defaulted_Priority]
    exact if_pos h
  · intro h
    rw [defaulted_Priority]
    exact if_neg h
  · intro h
    rw [defaulted_Status]
    exact if_pos h
  · intro h
    rw [defaulted_Status]
    exact if_neg h
  · rw [htitle]
    split
    · exact untitled_isTrimmed
    · exact trim_isTrimmed _
  · rw [defaulted_Headline]; exact trim_isTrimmed _
  · rw [defaulted_Description]; exact trim_isTrimmed _

/-- C13 at the payload of the test "must default values". -/
theorem TaskService_Save_defaults_witness :
    sampleOwner ≠ uuid.Nil ∧ sampleGroup ≠ uuid.Nil ∧
    (TaskService.Save (taskRepositoryMock sampleID.String none [] none) () sampleOwner
      sampleGroup (some defaultsCreation)).creation =
      some { Title := GoString.ofString "Untitled", Headline := GoString.ofString "Headline",
             Description := GoString.ofString "Description",
             Priority := types.TaskPriority.medium, Status := types.TaskStatus.incomplete,
             RemindAt := 0, DueDate := 0 } ∧
    ∃ d, (TaskService.Save (taskRepositoryMock sampleID.String none [] none) () sampleOwner
        sampleGroup (some defaultsCreation)).creation = some d ∧
      (validation.trim defaultsCreation.Title = [] → d.Title = GoString.ofString "Untitled") ∧
      (validation.trim defaultsCreation.Title ≠ [] →
        d.Title = validation.trim defaultsCreation.Title) ∧
      d.Headline = validation.trim defaultsCreation.Headline ∧
      d.Description = validation.trim defaultsCreation.Description ∧
      (defaultsCreation.Priority = types.TaskPriority.unset →
        d.Priority = types.TaskPriority.medium) ∧
      (defaultsCreation.Priority ≠ types.TaskPriority.unset →
        d.Priority = defaultsCreation.Priority) ∧
      (defaultsCreation.Status = types.TaskStatus.unset →
        d.Status = types.TaskStatus.incomplete) ∧
      (defaultsCreation.Status ≠ types.TaskStatus.unset →
        d.Status = defaultsCreation.Status) ∧
      IsTrimmed d.Title ∧ IsTrimmed d.Headline ∧ IsTrimmed d.Description :=
  ⟨by decide, by decide, by decide,
    TaskService_Save_defaults (taskRepositoryMock sampleID.String none [] none) ()
      sampleOwner sampleGroup defaultsCreation (by decide) (by decide) (by decide)⟩

/-- C14: with `ownerID` and `listID` set, `TaskService.Save` returns `uuid.Nil`
and a `TooLongError`, without calling the repository, when the trimmed title has
more than 128 characters (field "Title", max 128), else when the trimmed
headline has more than 64 (field "Headline", max 64), else when the trimmed
description has more than 512 (field "Description", max 512); with the three
texts at or under their bounds, in characters, the payload passes and the
repository is called. -/
theorem TaskService_Save_too_long {σ : Type} (r : repository.TaskRepository σ) (st : σ)
    (ownerID listID : uuid.UUID) (c : transfer.TaskCreation)
    (ho : ownerID ≠ uuid.Nil) (hl : listID ≠ uuid.Nil) :
    (128 < characterCount (validation.trim c.Title) →
      (TaskService.Save r st ownerID listID (some c)).insertedID = uuid.Nil ∧
      (TaskService.Save r st ownerID listID (some c)).err =
        some (GoError.tooLong "Title" "creation" 128) ∧
      (TaskService.Save r st ownerID listID (some c)).calls = []) ∧
    (characterCount (validation.trim c.Title) ≤ 128 →
      64 < characterCount (validation.trim c.Headline) →
      (TaskService.Save r st ownerID listID (some c)).insertedID = uuid.Nil ∧
      (TaskService.Save r st ownerID listID (some c)).err =
        some (GoError.tooLong "Headline" "creation" 64) ∧
      (TaskService.Save r st ownerID listID (some c)).calls = []) ∧
    (characterCount (validation.trim c.Title) ≤ 128 →
      characterCount (validation.trim c.Headline) ≤ 64 →
      512 < characterCount (validation.trim c.Description) →
      (TaskService.Save r st ownerID listID (some c)).insertedID = uuid.Nil ∧
      (TaskService.Save r st ownerID listID (some c)).err =
        some (GoError.tooLong "Description" "creation" 512) ∧
      (TaskService.Save r st ownerID listID (some c)).calls = []) ∧
    (characterCount (validation.trim c.Title) ≤ 128 →
      characterCount (validation.trim c.Headline) ≤ 64 →
      characterCount (validation.trim c.Description) ≤ 512 →
      (TaskService.Save r st ownerID listID (some c)).calls =
        [ServiceCall.TaskSave ownerID.String listID.String
          (TaskService.defaulted (TaskService.trimmed c))]) := by
  rw [TaskService_Save_of_set r st ownerID listID c ho hl]
  refine ⟨?_, ?_, ?_, ?_⟩
  · intro h1
    rw [if_pos h1]
    exact ⟨rfl, rfl, rfl⟩
  · intro h1 h2
    rw [if_neg (by omega), if_pos h2]
    exact ⟨rfl, rfl, rfl⟩
  · intro h1 h2 h3
    rw [if_neg (by omega), if_neg (by omega), if_pos h3]
    exact ⟨rfl, rfl, rfl⟩
  · intro h1 h2 h3
    rw [if_neg (by omega), if_neg (by omega), if_neg (by omega)]
    split <;> rfl

set_option maxRecDepth 100000 in
/-- C14 at the payload of the test "128 < len(creation.Title)", a title of 129
characters `x`, which is rejected, and at a title of 65 characters in 130
bytes, which reaches the repository. -/
theorem TaskService_Save_too_long_witness :
    sampleOwner ≠ uuid.Nil ∧ sampleGroup ≠ uuid.Nil ∧
    ((TaskService.Save (taskRepositoryMock sampleID.String none [] none) () sampleOwner
        sampleGroup (some longTitleCreation)).insertedID = uuid.Nil ∧
      (TaskService.Save (taskRepositoryMock sampleID.String none [] none) () sampleOwner
        sampleGroup (some longTitleCreation)).err =
        some (GoError.tooLong "Title" "creation" 128) ∧
      (TaskService.Save (taskRepositoryMock sampleID.String none [] none) () sampleOwner
        sampleGroup (some longTitleCreation)).calls = []) ∧
    characterCount accentedTitleCreation.Title = 65 ∧
    accentedTitleCreation.Title.len = 130 ∧
    (TaskService.Save (taskRepositoryMock sampleID.String none [] none) () sampleOwner
      sampleGroup (some accentedTitleCreation)).calls =
      [ServiceCall.TaskSave sampleOwner.String sampleGroup.String
        (TaskService.defaulted (TaskService.trimmed accentedTitleCreation))] :=
  ⟨by decide, by decide,
    (TaskService_Save_too_long (taskRepositoryMock sampleID.String none [] none) ()
      sampleOwner sampleGroup longTitleCreation (by decide) (by decide)).1 (by decide),
    by decide, by decide,
    (TaskService_Save_too_long (taskRepositoryMock sampleID.String none [] none) ()
      sampleOwner sampleGroup accentedTitleCreation (by decide) (by decide)).2.2.2
      (by decide) (by decide) (by decide)⟩

/-- C15: with `ownerID`, `listID` and the pagination set, `TaskService.Fetch`
calls the repository once, with page 1 in place of a page below 1 and 10 rows
per page in place of a number below 1, other values unchanged; `(0, -5)` and
`(-1, 0)` become `(1, 10)` and `(1, 10)` stays. -/
theorem TaskService_Fetch_normalizes {σ : Type} (r : repository.TaskRepository σ) (st : σ)
    (ownerID listID : uuid.UUID) (page rpp : Int) (needle sortExpr : GoString)
    (ho : ownerID ≠ uuid.Nil) (hl : listID ≠ uuid.Nil) :
    (TaskService.Fetch r st ownerID listID (some ⟨page, rpp⟩) needle sortExpr).calls =
      [ServiceCall.TaskFetch ownerID.String listID.String
        (if page < 1 then 1 else page) (if rpp < 1 then 10 else rpp)
        (validation.trim needle) (validation.trim sortExpr)] ∧
    pagination.normalize ⟨0, -5⟩ = ⟨1, 10⟩ ∧
    pagination.normalize ⟨-1, 0⟩ = ⟨1, 10⟩ ∧
    pagination.normalize ⟨1, 10⟩ = ⟨1, 10⟩ := by
  refine ⟨?_, by decide, by decide, by decide⟩
  have hn : pagination.normalize ⟨page, rpp⟩ =
      ⟨if page < 1 then 1 else page, if rpp < 1 then 10 else rpp⟩ := by
    unfold pagination.normalize
    by_cases h1 : page < 1 <;> by_cases h2 : rpp < 1 <;> simp [h1, h2]
  unfold TaskService.Fetch
  rw [if_neg (Ne.symm ho), if_neg (Ne.symm hl)]
  simp only [hn]
  split <;> rfl

/-- C15 at the pagination `(-1, 0)` of the test "defaults pagination". -/
theorem TaskService_Fetch_normalizes_witness :
    sampleOwner ≠ uuid.Nil ∧ sampleGroup ≠ uuid.Nil ∧
    (TaskService.Fetch (taskRepositoryMock [] none sampleTasks none) () sampleOwner
      sampleGroup (some ⟨-1, 0⟩) (GoString.ofString "x") (GoString.ofString "-title")).calls =
      [ServiceCall.TaskFetch sampleOwner.String sampleGroup.String 1 10
        (GoString.ofString "x") (GoString.ofString "-title")] :=
  ⟨by decide, by decide,
    ((TaskService_Fetch_normalizes (taskRepositoryMock [] none sampleTasks none) ()
      sampleOwner sampleGroup (-1) 0 (GoString.ofString "x") (GoString.ofString "-title")
      (by decide) (by decide)).1).trans (by decide)⟩

/-- C16: when the repository returns a payload and no error, `TaskService.Fetch`
and `GroupService.Fetch` return an envelope with the normalised page and rows
per page, that payload, and `Retrieved` equal to the number of its elements. -/
theorem Fetch_envelope {σ γ : Type} (rt : repository.TaskRepository σ)
    (rg : repository.GroupRepository σ γ) (st : σ)
    (ownerID listID : uuid.UUID) (pag : types.Pagination) (needle sortExpr : GoString)
    (tasks : List model.Task) (groups : List γ)
    (ho : ownerID ≠ uuid.Nil) (hl : listID ≠ uuid.Nil)
    (ht : (rt.Fetch ownerID.String listID.String (pagination.normalize pag).Page
      (pagination.normalize pag).RPP (validation.trim needle) (validation.trim sortExpr) st).1 =
        (tasks, none))
    (hg : (rg.Fetch ownerID.String (pagination.normalize pag).Page
      (pagination.normalize pag).RPP (validation.trim needle) (validation.trim sortExpr) st).1 =
        (groups, none)) :
    ((TaskService.Fetch rt st ownerID listID (some pag) needle sortExpr).err = none ∧
      (TaskService.Fetch rt st ownerID listID (some pag) needle sortExpr).result =
        some { Page := if pag.Page < 1 then 1 else pag.Page,
               RPP := if pag.RPP < 1 then 10 else pag.RPP,
               Retrieved := (tasks.length : Int), Payload := tasks }) ∧
    ((GroupService.Fetch rg st ownerID (some pag) needle sortExpr).err = none ∧
      (GroupService.Fetch rg st ownerID (some pag) needle sortExpr).result =
        some { Page := if pag.Page < 1 then 1 else pag.Page,
               RPP := if pag.RPP < 1 then 10 else pag.RPP,
               Retrieved := (groups.length : Int), Payload := groups }) := by
  have hn : pagination.normalize pag =
      ⟨if pag.Page < 1 then 1 else pag.Page, if pag.RPP < 1 then 10 else pag.RPP⟩ := by
    unfold pagination.normalize
    by_cases h1 : pag.Page < 1 <;> by_cases h2 : pag.RPP < 1 <;> simp [h1, h2]
  constructor
  · unfold TaskService.Fetch
    rw [if_neg (Ne.symm ho), if_neg (Ne.symm hl)]
    simp only [ht]
    rw [hn]
    simp [pagination.wrap]
  · unfold GroupService.Fetch
    rw [if_neg (Ne.symm ho)]
    simp only [hg]
    rw [hn]
    simp [pagination.wrap]

/-- C16 at the three tasks of `TestTaskService_Fetch` and the empty list of
groups of `TestGroupService_FindGroups`. -/
theorem Fetch_envelope_witness :
    sampleOwner ≠ uuid.Nil ∧ sampleGroup ≠ uuid.Nil ∧
    (TaskService.Fetch (taskRepositoryMock [] none sampleTasks none) () sampleOwner
      sampleGroup (some ⟨1, 10⟩) (GoString.ofString "x") (GoString.ofString "-title")).result =
      some { Page := 1, RPP := 10, Retrieved := 3, Payload := sampleTasks } ∧
    (GroupService.Fetch (groupRepositoryMock ([] : List Unit) none) () sampleOwner
      (some ⟨1, 10⟩) [] []).result =
      some { Page := 1, RPP := 10, Retrieved := 0, Payload := [] } :=
  ⟨by decide, by decide,
    ((Fetch_envelope (taskRepositoryMock [] none sampleTasks none)
      (groupRepositoryMock ([] : List Unit) none) () sampleOwner sampleGroup ⟨1, 10⟩
      (GoString.ofString "x") (GoString.ofString "-title") sampleTasks []
      (by decide) (by decide) rfl rfl).1.2).trans (by decide),
    by decide⟩

/-! ## The task repository -/

/-- C17: `taskRepository.Save` returns neither the identifier of the new task
nor an error: for every database and every input, that of
`TestTaskRepository_Save` included, it panics with "implement me". -/
theorem taskRepository_Save_panics {σ : Type} (db : σ) (ownerID listID : GoString)
    (creation : Option transfer.TaskCreation) :
    (NewTaskRepository db).Save ownerID listID creation = GoResult.panics "implement me" ∧
    (∀ out, (NewTaskRepository db).Save ownerID listID creation ≠ GoResult.returns out) ∧
    (NewTaskRepository ()).Save sampleOwner.String sampleGroup.String
      (some storedTaskCreation) = GoResult.panics "implement me" := by
  refine ⟨rfl, ?_, rfl⟩
  intro out h
  cases h

/-- C18: no sequence of `Save`, `Reorder`, `Move` and `Delete` that has a first
operation runs to its end: the repository panics with "implement me" at that
operation, whatever it is, and `Save` in particular appends no task. -/
theorem taskRepository_run_panics {σ : Type} (db : σ) (op : TaskOp) (ops : List TaskOp) :
    (NewTaskRepository db).run (op :: ops) = GoResult.panics "implement me" ∧
    (∀ o l c, (NewTaskRepository db).apply (TaskOp.Save o l c) =
      GoResult.panics "implement me") := by
  constructor
  · cases op <;> rfl
  · intro o l c
    rfl

/-- C19: `taskRepository.Reorder` moves no task and returns no result: for every
database and every input it panics with "implement me"; so it does on the list
of the spec's scenario, for the task at position 1 and the new position 0. -/
theorem taskRepository_Reorder_panics {σ : Type} (db : σ)
    (ownerID listID taskID : GoString) (position : Nat) :
    (NewTaskRepository db).Reorder ownerID listID taskID position =
      GoResult.panics "implement me" ∧
    (∀ out, (NewTaskRepository db).Reorder ownerID listID taskID position ≠
      GoResult.returns out) ∧
    (NewTaskRepository ()).Reorder sampleOwner.String sampleGroup.String taskIDText 0 =
      GoResult.panics "implement me" := by
  refine ⟨rfl, ?_, rfl⟩
  intro out h
  cases h

/-! ## The cutset of `SaveList` -/

/-- C20, the claim refuted: `SaveList` accepts a payload whose name begins with
a carriage return and whose description ends with a form feed, and leaves both
bytes where they are. -/
theorem SaveList_keeps_carriage_return :
    (ListService.SaveList (insertMock sampleID.String none) () sampleOwner sampleGroup
      (some carriageReturnPayload)).err = none ∧
    ¬ (∀ q, (ListService.SaveList (insertMock sampleID.String none) () sampleOwner
        sampleGroup (some carriageReturnPayload)).next = some q →
      IsTrimmed q.Name ∧ IsTrimmed q.Description) := by
  constructor
  · decide
  · intro h
    have hq : (ListService.SaveList (insertMock sampleID.String none) () sampleOwner
        sampleGroup (some carriageReturnPayload)).next = some carriageReturnPayload := by
      decide
    exact (h _ hq).1.1 13 rfl (by decide)

/-- C20, amended: for every payload accepted by `SaveList`, after the call
neither `Name` nor `Description` begins or ends with a space, a tab or a
newline; any other byte at either end of the original text, a carriage return,
vertical tab or form feed included, is still at that end. -/
theorem SaveList_strips_blank_only {σ : Type} (r : repository.IListRepository σ) (st : σ)
    (ownerID groupID : uuid.UUID) (p : transfer.ListCreation)
    (ho : ownerID ≠ uuid.Nil) (hg : groupID ≠ uuid.Nil)
    (hne : strings.Trim p.Name ListService.cutset ≠ [])
    (hle : (strings.Trim p.Name ListService.cutset).len ≤ 50) :
    ∃ q : transfer.ListCreation,
      (ListService.SaveList r st ownerID groupID (some p)).next = some q ∧
      (∀ b, q.Name.head? = some b → ¬ isBlank b) ∧
      (∀ b, q.Name.getLast? = some b → ¬ isBlank b) ∧
      (∀ b, q.Description.head? = some b → ¬ isBlank b) ∧
      (∀ b, q.Description.getLast? = some b → ¬ isBlank b) ∧
      (∀ b, ¬ isBlank b → p.Name.head? = some b → q.Name.head? = some b) ∧
      (∀ b, ¬ isBlank b → p.Name.getLast? = some b → q.Name.getLast? = some b) ∧
      (∀ b, ¬ isBlank b → p.Description.head? = some b → q.Description.head? = some b) ∧
      (∀ b, ¬ isBlank b → p.Description.getLast? = some b →
        q.Description.getLast? = some b) := by
  have h : ¬ (ListService.trimmed p).Name = [] := hne
  have hlen : ¬ 50 < (ListService.trimmed p).Name.len := by
    show ¬ 50 < (strings.Trim p.Name ListService.cutset).len
    omega
  have hnot : ∀ b, ¬ isBlank b → strings.contains ListService.cutset b = false := by
    intro b hb
    cases hc : strings.contains ListService.cutset b with
    | false => rfl
    | true => exact absurd ((contains_cutset b).1 hc) hb
  have hhead : ∀ (s : GoString) b, ¬ isBlank b → s.head? = some b →
      (strings.Trim s ListService.cutset).head? = some b := by
    intro s b hb hs
    cases s with
    | nil => simp at hs
    | cons a rest =>
      have ha : a = b := by simpa using hs
      subst ha
      exact Trim_cons_of_not_mem a rest ListService.cutset (hnot a hb)
  have hlast : ∀ (s : GoString) b, ¬ isBlank b → s.getLast? = some b →
      (strings.Trim s ListService.cutset).getLast? = some b := by
    intro s b hb hs
    obtain ⟨init, rfl⟩ := List.getLast?_eq_some_iff.1 hs
    exact Trim_concat_of_not_mem b init ListService.cutset (hnot b hb)
  obtain ⟨_, _, _, _, _, hn1, hn2⟩ := Trim_isTrimOf p.Name
  obtain ⟨_, _, _, _, _, hd1, hd2⟩ := Trim_isTrimOf p.Description
  refine ⟨ListService.trimmed p, ?_, hn1, hn2, hd1, hd2, hhead p.Name, hlast p.Name,
    hhead p.Description, hlast p.Description⟩
  rw [SaveList_of_set r st ownerID groupID p ho hg, if_neg h, if_neg hlen]
  split <;> rfl

/-- C20, amended, at a payload with a carriage return before the name and a form
feed after the description. -/
theorem SaveList_strips_blank_only_witness :
    sampleOwner ≠ uuid.Nil ∧ sampleGroup ≠ uuid.Nil ∧
    ∃ q : transfer.ListCreation,
      (ListService.SaveList (insertMock sampleID.String none) () sampleOwner sampleGroup
        (some carriageReturnPayload)).next = some q ∧
      (∀ b, q.Name.head? = some b → ¬ isBlank b) ∧
      (∀ b, q.Name.getLast? = some b → ¬ isBlank b) ∧
      (∀ b, q.Description.head? = some b → ¬ isBlank b) ∧
      (∀ b, q.Description.getLast? = some b → ¬ isBlank b) ∧
      (∀ b, ¬ isBlank b → carriageReturnPayload.Name.head? = some b →
        q.Name.head? = some b) ∧
      (∀ b, ¬ isBlank b → carriageReturnPayload.Name.getLast? = some b →
        q.Name.getLast? = some b) ∧
      (∀ b, ¬ isBlank b → carriageReturnPayload.Description.head? = some b →
        q.Description.head? = some b) ∧
      (∀ b, ¬ isBlank b → carriageReturnPayload.Description.getLast? = some b →
        q.Description.getLast? = some b) :=
  ⟨by decide, by decide,
    SaveList_strips_blank_only (insertMock sampleID.String none) () sampleOwner sampleGroup
      carriageReturnPayload (by decide) (by decide) (by decide) (by decide)⟩

/-! ## Bytes and characters of a name -/

/-- C21: `SaveList` counts bytes, not characters: a name of 26 characters, each
of two bytes in UTF-8, is rejected as too long, with no call of `InsertList`. -/
theorem SaveList_counts_bytes :
    accentedName.length = 26 ∧
    characterCount (GoString.ofString accentedName) = 26 ∧
    (GoString.ofString accentedName).len = 52 ∧
    strings.Trim accentedNamePayload.Name ListService.cutset = accentedNamePayload.Name ∧
    (ListService.SaveList (insertMock sampleID.String none) () sampleOwner sampleGroup
      (some accentedNamePayload)).err =
      some (errors.New "name too long for list: max length must be 50") ∧
    (ListService.SaveList (insertMock sampleID.String none) () sampleOwner sampleGroup
      (some accentedNamePayload)).calls = [] := by
  refine ⟨?_, ?_, ?_, ?_, ?_, ?_⟩ <;> decide

/-! ## The result of `Update` -/

theorem sqlCoalesceTrim_blank (param column : GoString) (h : sqlTrim param = []) :
    sqlCoalesceTrim param column = column := by
  unfold sqlCoalesceTrim
  rw [if_pos h]

theorem updateRow_blank_names (db : UserStore) (id : GoString) (up : transfer.UserUpdate)
    (h1 : sqlTrim up.FirstName = []) (h2 : sqlTrim up.MiddleName = [])
    (h3 : sqlTrim up.LastName = []) (h4 : sqlTrim up.Surname = []) (row : UserRow) :
    (db.updateRow id up row).names = row.names := by
  unfold UserStore.updateRow
  split
  · simp [UserRow.names, sqlCoalesceTrim_blank, h1, h2, h3, h4]
  · rfl

theorem Update_blank_returns_true (db : UserStore) (userID : GoString)
    (up : transfer.UserUpdate) (row : UserRow)
    (hf : db.fault (SqlStmt.selectByID userID) = none)
    (hsel : db.selectByID userID = [row])
    (hdiff : ¬ (row.first_name = up.FirstName ∧ row.middle_name = up.MiddleName ∧
      row.last_name = up.LastName ∧ row.surname = up.Surname))
    (hfu : db.fault (SqlStmt.updateUser userID up) = none)
    (hra : db.rowsAffectedFault (SqlStmt.updateUser userID up) = none)
    (h1 : sqlTrim up.FirstName = []) (h2 : sqlTrim up.MiddleName = [])
    (h3 : sqlTrim up.LastName = []) (h4 : sqlTrim up.Surname = []) :
    ∃ out, UserRepository.Update db userID (some up) = GoResult.returns out ∧
      out.value = true ∧ out.err = none ∧
      out.db.rows.map UserRow.names = db.rows.map UserRow.names := by
  simp [UserRepository.Update, UserRepository.SelectByID, hf, hsel, UserRow.toUser, hdiff,
    hfu, hra]
  intro row' _
  exact updateRow_blank_names db userID up h1 h2 h3 h4 row'

/-- C22: `Update` returns `(true, nil)` for an update whose four fields are
blank, on a stored user with four names: the SELECT and the UPDATE are executed,
one row is affected, and the four stored names are what they were. -/
theorem Update_blank_reports_change :
    ∃ out, UserRepository.Update sampleUserStore sampleID.String (some blankUserUpdate) =
        GoResult.returns out ∧
      out.value = true ∧ out.err = none ∧
      out.executed = [SqlStmt.selectByID sampleID.String,
        SqlStmt.updateUser sampleID.String blankUserUpdate] ∧
      out.db.rows.map UserRow.names = sampleUserStore.rows.map UserRow.names :=
  ⟨_, rfl, by decide, by decide, by decide, by decide⟩

/-! ## The page after the clamp -/

theorem SelectAll_page_zero {ρ : Type} (db : sql.DB ρ) (limit page : Int)
    (hl : isInt64 limit) (hbig : math.MaxInt64 < 2 * limit) (hp1 : 1 ≤ page) :
    ∃ out, UserRepository.SelectAll db limit page = some out ∧
      out.sent = [(limit, 0)] ∧ UserRepository.offset limit 0 < 0 := by
  have hM : math.MaxInt64 = 9223372036854775807 := rfl
  have hl1 : 1 ≤ limit := by omega
  obtain ⟨hmv, hq1, _, hq3, _⟩ := maxValidBeforeOverflow_eq limit hl1 hl.2
  have hq : math.MaxInt64 / limit = 1 := by
    have : math.MaxInt64 / limit < 2 := by
      by_contra hge
      have h2 : 2 ≤ math.MaxInt64 / limit := by omega
      have : limit * 2 ≤ limit * (math.MaxInt64 / limit) :=
        Int.mul_le_mul_of_nonneg_left h2 (by omega)
      omega
    omega
  have hoff : UserRepository.offset limit 0 < 0 := by
    unfold UserRepository.offset
    omega
  unfold UserRepository.SelectAll
  rw [hmv, hq]
  have hpage : (if page > (1 : Int) - 1 then (1 : Int) - 1 else page) = 0 := by
    rw [if_pos (by omega)]; rfl
  simp only [hpage]
  cases db.QueryAll limit 0 with
  | error e => exact ⟨_, rfl, rfl, hoff⟩
  | ok users => exact ⟨_, rfl, rfl, hoff⟩

/-- C23: for `limit = MaxInt64` and `page = 1`, and for `limit = 2^62` and
`page = 1`, `SelectAll` sends page 0 to the store, and the offset `limit * (0 -
1)` is negative. -/
theorem SelectAll_clamps_to_page_zero :
    (∃ out, UserRepository.SelectAll emptyDB math.MaxInt64 1 = some out ∧
      out.sent = [(math.MaxInt64, 0)] ∧ UserRepository.offset math.MaxInt64 0 < 0) ∧
    (∃ out, UserRepository.SelectAll emptyDB 4611686018427387904 1 = some out ∧
      out.sent = [(4611686018427387904, 0)] ∧
      UserRepository.offset 4611686018427387904 0 < 0) :=
  ⟨⟨_, rfl, by decide, by decide⟩, ⟨_, rfl, by decide, by decide⟩⟩

/-! ## The payload after a rejected `SaveList` -/

/-- C24, the claim refuted: with `ownerID`, `groupID` and the payload set and
valid, a repository whose `InsertList` fails with a `NilParameterError` makes
`SaveList` fail with that `NilParameterError`, and the caller's payload is then
the trimmed one, not the one passed. -/
theorem SaveList_nil_parameter_after_trim :
    (ListService.SaveList nilParameterMock () sampleOwner sampleGroup
      (some samplePayload)).err =
      some (failure.NewNilParameterError "SaveList" "ownerID") ∧
    (ListService.SaveList nilParameterMock () sampleOwner sampleGroup
      (some samplePayload)).next ≠ some samplePayload ∧
    (ListService.SaveList nilParameterMock () sampleOwner sampleGroup
      (some samplePayload)).next =
      some ⟨GoString.ofString "list name", GoString.ofString "description"⟩ := by
  refine ⟨?_, ?_, ?_⟩ <;> decide

/-- C24, amended: `SaveList` trims before it validates. When it rejects the name
as empty or as too long, the caller's payload holds the trimmed `Name` and
`Description`; when `ownerID`, `groupID` or `next` is unset and it fails with
the `NilParameterError` for it, the payload is as it was passed; a
`NilParameterError` returned with all three set is one that `InsertList` handed
back, and the payload then holds the trimmed texts. -/
theorem SaveList_trims_before_validation {σ : Type} (r : repository.IListRepository σ)
    (st : σ) (ownerID groupID : uuid.UUID) (p : transfer.ListCreation) :
    (ownerID ≠ uuid.Nil → groupID ≠ uuid.Nil →
      strings.Trim p.Name ListService.cutset = [] →
      (ListService.SaveList r st ownerID groupID (some p)).err =
        some (errors.New "name cannot be an empty string") ∧
      (ListService.SaveList r st ownerID groupID (some p)).next =
        some ⟨strings.Trim p.Name ListService.cutset,
          strings.Trim p.Description ListService.cutset⟩) ∧
    (ownerID ≠ uuid.Nil → groupID ≠ uuid.Nil →
      50 < (strings.Trim p.Name ListService.cutset).len →
      (ListService.SaveList r st ownerID groupID (some p)).err =
        some (errors.New "name too long for list: max length must be 50") ∧
      (ListService.SaveList r st ownerID groupID (some p)).next =
        some ⟨strings.Trim p.Name ListService.cutset,
          strings.Trim p.Description ListService.cutset⟩) ∧
    IsTrimOf p.Name (strings.Trim p.Name ListService.cutset) ∧
    IsTrimOf p.Description (strings.Trim p.Description ListService.cutset) ∧
    (ownerID = uuid.Nil →
      (ListService.SaveList r st ownerID groupID (some p)).err =
        some (failure.NewNilParameterError "SaveList" "ownerID") ∧
      (ListService.SaveList r st ownerID groupID (some p)).next = some p) ∧
    (ownerID ≠ uuid.Nil → groupID = uuid.Nil →
      (ListService.SaveList r st ownerID groupID (some p)).err =
        some (failure.NewNilParameterError "SaveList" "groupID") ∧
      (ListService.SaveList r st ownerID groupID (some p)).next = some p) ∧
    (ownerID ≠ uuid.Nil → groupID ≠ uuid.Nil →
      (ListService.SaveList r st ownerID groupID none).err =
        some (failure.NewNilParameterError "SaveList" "next") ∧
      (ListService.SaveList r st ownerID groupID none).next = none) ∧
    (ownerID ≠ uuid.Nil → groupID ≠ uuid.Nil → ∀ f q,
      (ListService.SaveList r st ownerID groupID (some p)).err =
        some (failure.NewNilParameterError f q) →
      (ListService.SaveList r st ownerID groupID (some p)).next =
        some ⟨strings.Trim p.Name ListService.cutset,
          strings.Trim p.Description ListService.cutset⟩ ∧
      (r.InsertList ownerID.String groupID.String (ListService.trimmed p) st).1.2 =
        some (failure.NewNilParameterError f q)) := by
  refine ⟨?_, ?_, Trim_isTrimOf p.Name, Trim_isTrimOf p.Description, ?_, ?_, ?_, ?_⟩
  · intro ho hg hnil
    have h : (ListService.trimmed p).Name = [] := hnil
    rw [SaveList_of_set r st ownerID groupID p ho hg, if_pos h]
    exact ⟨rfl, rfl⟩
  · intro ho hg hlong
    have h : ¬ (ListService.trimmed p).Name = [] := by
      intro hnil
      have hnil2 : strings.Trim p.Name ListService.cutset = [] := hnil
      rw [hnil2] at hlong
      simp [GoString.len] at hlong
    have hlen : 50 < (ListService.trimmed p).Name.len := hlong
    rw [SaveList_of_set r st ownerID groupID p ho hg, if_neg h, if_pos hlen]
    exact ⟨rfl, rfl⟩
  · intro ho
    simp [ListService.SaveList, ho]
  · intro ho hg
    simp [ListService.SaveList, Ne.symm ho, hg]
  · intro ho hg
    simp [ListService.SaveList, Ne.symm ho, Ne.symm hg]
  · intro ho hg f q
    rw [SaveList_of_set r st ownerID groupID p ho hg]
    split
    · simp [errors.New, failure.NewNilParameterError]
    · split
      · simp [errors.New, failure.NewNilParameterError]
      · split
        · next e he =>
          intro h
          exact ⟨rfl, by rw [he]; exact h⟩
        · next he =>
          intro h
          exact absurd h (Parse_err_ne_nilParameter _ f q)

/-- C24, amended, at the payload of the test "name cannot be empty": the
description is left trimmed though the name is rejected; with `ownerID` unset
the payload of the tests is left as passed. -/
theorem SaveList_trims_before_validation_witness :
    (ListService.SaveList (insertMock sampleID.String none) () sampleOwner sampleGroup
      (some blankNamePayload)).next = some ⟨[], GoString.ofString "description"⟩ ∧
    blankNamePayload.Description ≠ GoString.ofString "description" ∧
    (ListService.SaveList (insertMock sampleID.String none) () uuid.Nil sampleGroup
      (some samplePayload)).next = some samplePayload :=
  ⟨((SaveList_trims_before_validation (insertMock sampleID.String none) () sampleOwner
      sampleGroup blankNamePayload).1 (by decide) (by decide) (by decide)).2.trans (by decide),
    by decide,
    ((SaveList_trims_before_validation (insertMock sampleID.String none) () uuid.Nil
      sampleGroup samplePayload).2.2.2.2.1 rfl).2⟩

/-! ## Every method of the task repository -/

/-- C25: every method of the `taskRepository` that `NewTaskRepository` returns
panics with "implement me" for every input: no call returns, with or without
an error, and the database after the call is the database before it. -/
theorem taskRepository_every_method_panics {σ : Type} (db : σ) (c : TaskCall) :
    (NewTaskRepository db).call c = CallEnd.panicked "implement me" ∧
    (∀ err db2, (NewTaskRepository db).call c ≠ CallEnd.returned err db2) ∧
    (NewTaskRepository db).storeAfter c = db := by
  cases c <;> refine ⟨rfl, ?_, rfl⟩ <;> intro err db2 h <;> cases h
